import Mathlib

/-
  Verification development for the scrapefm crawler (src/scrapefm.py).

  The development is a shallow embedding of the crawl-and-reconcile engine:
  the _Cache identity cache, the entity tables, the visit operation
  (Scraper.scrape_user with its commit_on_success / handle_api_errors
  decorators), the run loop (Scraper.run), the reconciler (Scraper.rescrape)
  and the week selector (Scraper._get_weeks).

  Modelling conventions:
  - The remote collaborator (pylast) is a record of deterministic functions
    returning Except values; a pylast exception (WSError,
    MalformedResponseError, NetworkError) is an ApiErr result.
  - The SQLite store is explicit data (Db); peewee create is list append,
    the commit_on_success decorator restores the entry Db on failure.
  - Surrogate ids for Artists, Tags and Friends rows come from per-table
    counters (peewee autoincrement); Users rows carry the id reported by
    the remote service, as in the source.
  - random.choice and random.sample are modelled by an explicit stream of
    naturals carried in the state (rngList): choice picks by index modulo
    length, sample is a rotation followed by take, preserving the
    cardinality and membership contract of random.sample.
  - Logging is not modelled except for the error log counter errlog,
    incremented exactly where handle_api_errors logs a caught error.
-/

/-! ## Association lists (dict lookup) -/

def alookup {K V : Type} [DecidableEq K] : List (K × V) → K → Option V
  | [], _ => none
  | (k, v) :: rest, k2 => if k2 = k then some v else alookup rest k2

def eraseKey {K V : Type} [DecidableEq K] (k : K) (l : List (K × V)) : List (K × V) :=
  l.filter (fun p => ¬ p.1 = k)

/-! ## The identity cache (class _Cache, scrapefm.py lines 25-73)

  store holds the committed layer, tmp the pending layer. -/

structure Cache (K V : Type) where
  store : List (K × V)
  tmp : List (K × V)
deriving DecidableEq

/-- Cache.__getitem__: tmp first, then store (lines 50-55); returning
    Option instead of raising KeyError. -/
def getC {K V : Type} [DecidableEq K] (c : Cache K V) (k : K) : Option V :=
  match alookup c.tmp k with
  | some v => some v
  | none => alookup c.store k

/-- Membership test (collections.Mapping __contains__ via __getitem__). -/
def memC {K V : Type} [DecidableEq K] (c : Cache K V) (k : K) : Bool :=
  (getC c k).isSome

/-- Cache.__setitem__: writes only the tmp layer (lines 57-58), with dict
    overwrite semantics on the key. -/
def setC {K V : Type} [DecidableEq K] (c : Cache K V) (k : K) (v : V) : Cache K V :=
  { c with tmp := (k, v) :: eraseKey k c.tmp }

/-- Cache.__len__: counts only the committed layer (lines 63-64). -/
def lenC {K V : Type} (c : Cache K V) : Nat :=
  c.store.length

/-- Cache.__iter__: yields only committed keys (lines 60-61). -/
def keysC {K V : Type} (c : Cache K V) : List K :=
  c.store.map Prod.fst

/-- Cache.commit: merge tmp into store, clear tmp (lines 66-69).
    dict.update semantics: tmp entries override store entries. -/
def commitC {K V : Type} [DecidableEq K] (c : Cache K V) : Cache K V :=
  ⟨c.tmp ++ c.store.filter (fun p => (alookup c.tmp p.1).isNone), []⟩

/-- Cache.rollback: discard tmp, keep store (lines 71-73). -/
def rollbackC {K V : Type} (c : Cache K V) : Cache K V :=
  { c with tmp := [] }

/-! ## The store (entity tables of scrapefm.py lines 83-127) -/

/-- One WeeklyArtistChart row (lines 115-120). -/
structure WRow where
  user : Nat
  artist : Nat
  weekfrom : String
  playcount : Nat
deriving DecidableEq

/-- The SQLite database contents relevant to the claims.  Users rows are
    (id, name) with id reported by the remote service; Artists and Tags
    rows are (autoincrement id, name); Friends rows are the (a, b) pair;
    ArtistTags rows are (artist id, tag id).  The nextX fields are the
    autoincrement counters. -/
structure Db where
  users : List (Nat × String)
  artists : List (Nat × String)
  tags : List (Nat × String)
  friends : List (Nat × Nat)
  artistTags : List (Nat × Nat)
  weekly : List WRow
  nextArtist : Nat
  nextTag : Nat
  nextFriend : Nat
deriving DecidableEq

def userNames (db : Db) : List String := db.users.map Prod.snd
def artistNames (db : Db) : List String := db.artists.map Prod.snd
def tagNames (db : Db) : List String := db.tags.map Prod.snd

/-! ## Remote collaborator and configuration -/

/-- The three pylast exception classes caught by handle_api_errors
    (lines 287-289). -/
inductive ApiErr where
  | ws
  | malformed
  | network
deriving DecidableEq

/-- Failures escaping the visit body: a pylast error, or the KeyError that
    a missing sentinel artist would raise at line 483 (not a pylast error,
    hence not caught by handle_api_errors). -/
inductive VErr where
  | api (e : ApiErr)
  | keyError
deriving DecidableEq

/-- The remote collaborator: each field is one Last.fm request kind used by
    the scraper.  userInfo returns the id field of user.getInfo; friendsOf
    is user.getFriends already truncated to maxfriends; chartDates is
    user.getWeeklyChartList; weeklyChart is user.getWeeklyArtistChart for
    (name, weekfrom, weekto); artistInfo is artist.getInfo, of which only
    the tag list matters to the claims. -/
structure Api where
  userInfo : String → Except ApiErr Nat
  friendsOf : String → Except ApiErr (List String)
  chartDates : String → Except ApiErr (List (String × String))
  weeklyChart : String → String → String → Except ApiErr (List (String × Nat))
  artistInfo : String → Except ApiErr (List String)

/-- The options merged into the Scraper instance that the claims mention.
    dateMatch is the composite of strftime on datefmt and the datematch
    regular expression applied to a week start (both external libraries),
    modelled as an opaque predicate. -/
structure Cfg where
  username : String
  limit : Nat
  errlim : Nat
  do_connect : Bool
  dateMatch : String → Bool

/-! ## Scraper state -/

/-- The mutable state of one Scraper: the database, the four identity
    caches (lines 163-166), the error counter (line 158), the count of
    errors logged by handle_api_errors, and the random stream. -/
structure ScraperSt where
  db : Db
  usersC : Cache String Nat
  artistsC : Cache String Nat
  tagsC : Cache String Nat
  friendsC : Cache (Nat × Nat) Nat
  errcnt : Nat
  errlog : Nat
  rngList : List Nat
deriving DecidableEq

/-- Result of a fallible state-transforming operation inside a visit:
    either a value with the updated state, or an escaping exception with
    the state as mutated so far (the database writes so far are still
    pending inside the open transaction). -/
inductive VRes (α : Type) where
  | ok (st : ScraperSt) (a : α)
  | err (e : VErr) (st : ScraperSt)
deriving DecidableEq

/-- State carried by a VRes, whichever way it went. -/
def VRes.state {α : Type} : VRes α → ScraperSt
  | .ok st _ => st
  | .err _ st => st

/-! ## Visit operations (scrapefm.py lines 379-484)

  Each row insert of the source (a peewee create call, possibly paired
  with the cache assignment on the same source line) is a small named
  state transformer; the loops then mirror the source control flow. -/

/-- Users row insert of create_single for create_user (line 250). -/
def addUserRow (uid : Nat) (uname : String) (st : ScraperSt) : ScraperSt :=
  { st with db := { st.db with users := st.db.users ++ [(uid, uname)] } }

/-- Scraper.create_user via create_single (lines 216-250): one
    user.getInfo request, then a Users row insert; returns the id. -/
def create_user (api : Api) (uname : String) (st : ScraperSt) : VRes Nat :=
  match api.userInfo uname with
  | .error e => .err (.api e) st
  | .ok uid => .ok (addUserRow uid uname st) uid

/-- Scraper.create_tag (lines 177-187): insert a Tags row, return its id. -/
def create_tag (tag : String) (st : ScraperSt) : ScraperSt × Nat :=
  let tid := st.db.nextTag
  ({ st with db := { st.db with tags := st.db.tags ++ [(tid, tag)], nextTag := tid + 1 } }, tid)

/-- The cache assignment self.tags[tag] = ... (line 392). -/
def cacheTag (tag : String) (tid : Nat) (st : ScraperSt) : ScraperSt :=
  { st with tagsC := setC st.tagsC tag tid }

/-- ArtistTags.create (line 393). -/
def addArtistTag (aid tid : Nat) (st : ScraperSt) : ScraperSt :=
  { st with db := { st.db with artistTags := st.db.artistTags ++ [(aid, tid)] } }

/-- The tag loop of Scraper.scrape_artist (lines 390-393): for each tag,
    resolve or create it through the tags cache, then insert an ArtistTags
    row.  No remote request is made inside the loop. -/
def tagsLoop (aid : Nat) : List String → ScraperSt → ScraperSt
  | [], st => st
  | tag :: rest, st =>
      match getC st.tagsC tag with
      | some tid => tagsLoop aid rest (addArtistTag aid tid st)
      | none =>
          let r := create_tag tag st
          tagsLoop aid rest (addArtistTag aid r.2 (cacheTag tag r.2 r.1))

/-- Artists row insert of create_single for create_artist (line 250),
    returning the fresh autoincrement id. -/
def addArtistRow (name : String) (st : ScraperSt) : ScraperSt × Nat :=
  let aid := st.db.nextArtist
  ({ st with db := { st.db with artists := st.db.artists ++ [(aid, name)], nextArtist := aid + 1 } },
   aid)

/-- Scraper.scrape_artist (lines 379-395): create_artist issues one
    artist.getInfo request and inserts an Artists row; scrape_artisttags
    issues a second artist.getInfo request (line 405) and yields the tags.
    The api is deterministic, matching the enabled pylast request cache. -/
def scrape_artist (api : Api) (name : String) (st : ScraperSt) : VRes Nat :=
  match api.artistInfo name with
  | .error e => .err (.api e) st
  | .ok _ =>
      let r := addArtistRow name st
      match api.artistInfo name with
      | .error e => .err (.api e) r.1
      | .ok tags => .ok (tagsLoop r.2 tags r.1) r.2

/-- WeeklyArtistChart.create (lines 479 and 484). -/
def addWeeklyRow (uid aid : Nat) (wf : String) (cnt : Nat) (st : ScraperSt) : ScraperSt :=
  { st with db := { st.db with weekly := st.db.weekly ++ [⟨uid, aid, wf, cnt⟩] } }

/-- The cache assignment self.artists[artist.name] = ... (line 475). -/
def cacheArtist (aname : String) (aid : Nat) (st : ScraperSt) : ScraperSt :=
  { st with artistsC := setC st.artistsC aname aid }

/-- The chart loop of Scraper.scrape_week (lines 473-479): for each
    (artist, count) entry, resolve the artist through the artists cache or
    scrape it (caching the fresh id), then insert one WeeklyArtistChart
    row. -/
def chartLoop (api : Api) (uid : Nat) (wf : String) :
    List (String × Nat) → ScraperSt → VRes Unit
  | [], st => .ok st ()
  | (aname, cnt) :: rest, st =>
      match getC st.artistsC aname with
      | some aid => chartLoop api uid wf rest (addWeeklyRow uid aid wf cnt st)
      | none =>
          match scrape_artist api aname st with
          | .err e st2 => .err e st2
          | .ok st2 aid =>
              chartLoop api uid wf rest (addWeeklyRow uid aid wf cnt (cacheArtist aname aid st2))

/-- Scraper.scrape_week (lines 455-484): fetch the weekly chart; if it is
    empty, insert the single placeholder row referencing the artist with
    the empty name and playcount 0 (lines 481-484); a missing placeholder
    artist in the cache would raise KeyError. -/
def scrape_week (api : Api) (uname : String) (uid : Nat) (wf wt : String)
    (st : ScraperSt) : VRes Unit :=
  match api.weeklyChart uname wf wt with
  | .error e => .err (.api e) st
  | .ok [] =>
      match getC st.artistsC "" with
      | none => .err .keyError st
      | some sid => .ok (addWeeklyRow uid sid wf 0 st) ()
  | .ok chart => chartLoop api uid wf chart st

/-- The week loop of Scraper.scrape_user (lines 450-451). -/
def weeksLoop (api : Api) (uname : String) (uid : Nat) :
    List (String × String) → ScraperSt → VRes Unit
  | [], st => .ok st ()
  | (wf, wt) :: rest, st =>
      match scrape_week api uname uid wf wt st with
      | .err e st2 => .err e st2
      | .ok st2 _ => weeksLoop api uname uid rest st2

/-- Friends.create plus the cache assignment (lines 424-425), for an
    already canonically ordered pair. -/
def addFriendRow (pair : Nat × Nat) (st : ScraperSt) : ScraperSt :=
  { st with
    db := { st.db with friends := st.db.friends ++ [pair], nextFriend := st.db.nextFriend + 1 },
    friendsC := setC st.friendsC pair st.db.nextFriend }

/-- The friend loop of Scraper.scrape_friends (lines 419-425): skip
    friends not yet in the users cache; canonicalise the id pair by
    sorting; skip pairs already in the friends cache; otherwise insert a
    Friends row and cache the pair. -/
def friendsLoop (uid : Nat) : List String → ScraperSt → ScraperSt
  | [], st => st
  | f :: rest, st =>
      match getC st.usersC f with
      | none => friendsLoop uid rest st
      | some fid =>
          let pair := if uid ≤ fid then (uid, fid) else (fid, uid)
          match getC st.friendsC pair with
          | some _ => friendsLoop uid rest st
          | none => friendsLoop uid rest (addFriendRow pair st)

/-- Scraper.scrape_friends (lines 409-425): one getFriends request, then
    the pure friend loop. -/
def scrape_friends (api : Api) (uname : String) (uid : Nat) (st : ScraperSt) : VRes Unit :=
  match api.friendsOf uname with
  | .error e => .err (.api e) st
  | .ok fr => .ok (friendsLoop uid fr st) ()

/-- The body of Scraper.scrape_user (lines 429-453), without the two
    decorators: resolve or create the member id, link friends when
    do_connect is set, then scrape every requested week. -/
def scrape_user_body (api : Api) (cfg : Cfg) (uname : String)
    (weeks : List (String × String)) (st : ScraperSt) : VRes Nat :=
  let uidR : VRes Nat :=
    match getC st.usersC uname with
    | none => create_user api uname st
    | some uid => .ok st uid
  match uidR with
  | .err e st2 => .err e st2
  | .ok st1 uid =>
      let fR : VRes Unit :=
        if cfg.do_connect then scrape_friends api uname uid st1 else .ok st1 ()
      match fR with
      | .err e st2 => .err e st2
      | .ok st2 _ =>
          match weeksLoop api uname uid weeks st2 with
          | .err e st2 => .err e st2
          | .ok st3 _ => .ok st3 uid

/-- Outcome of the decorated Scraper.scrape_user as observed by callers:
    ok is a committed visit returning the id; failed is a pylast error
    swallowed by handle_api_errors below the limit (the method returns
    None); tripped is the ScraperException raised at the limit; crashed is
    a non-pylast exception escaping the decorators. -/
inductive VisitOutcome where
  | ok (st : ScraperSt) (uid : Nat)
  | failed (st : ScraperSt)
  | tripped (st : ScraperSt)
  | crashed (st : ScraperSt)
deriving DecidableEq

/-- The decorated Scraper.scrape_user (lines 427-453):
    DBASE.commit_on_success commits the open transaction on success and
    rolls the database back to the entry state on any exception, re-raising
    it; handle_api_errors (lines 281-296) then catches the three pylast
    errors, increments errcnt, and either logs and returns None (below
    ERRLIM) or raises ScraperException.  Neither decorator touches the
    caches. -/
def scrape_user (api : Api) (cfg : Cfg) (uname : String)
    (weeks : List (String × String)) (st : ScraperSt) : VisitOutcome :=
  match scrape_user_body api cfg uname weeks st with
  | .ok st1 uid => .ok st1 uid
  | .err .keyError st1 => .crashed { st1 with db := st.db }
  | .err (.api _) st1 =>
      let st2 := { st1 with db := st.db, errcnt := st1.errcnt + 1 }
      if st2.errcnt < cfg.errlim then .failed { st2 with errlog := st2.errlog + 1 }
      else .tripped st2

/-! ## The run loop (Scraper.run, lines 346-377) -/

/-- Scraper._cache_sync True (lines 340-342): commit every cache. -/
def commitAll (st : ScraperSt) : ScraperSt :=
  { st with usersC := commitC st.usersC, artistsC := commitC st.artistsC,
            tagsC := commitC st.tagsC, friendsC := commitC st.friendsC }

/-- Scraper._cache_sync False (lines 343-344): roll every cache back. -/
def rollbackAll (st : ScraperSt) : ScraperSt :=
  { st with usersC := rollbackC st.usersC, artistsC := rollbackC st.artistsC,
            tagsC := rollbackC st.tagsC, friendsC := rollbackC st.friendsC }

/-- One execution of lines 371-373 of the run loop for a popped username:
    visit when unvisited, then sync the caches with the outcome.  On
    failure the run first writes users[username] = None into the pending
    layer and the immediate _cache_sync False discards exactly that write
    together with the rest of the pending layers, so the net effect is
    rollbackAll.  cont means the loop proceeds; fatal is the propagating
    ScraperException; crashed a propagating non-pylast exception. -/
inductive StepRes where
  | cont (st : ScraperSt)
  | fatal (st : ScraperSt)
  | crashed (st : ScraperSt)
deriving DecidableEq

def visitStep (api : Api) (cfg : Cfg) (weeks : List (String × String))
    (uname : String) (st : ScraperSt) : StepRes :=
  if memC st.usersC uname then .cont st
  else
    match scrape_user api cfg uname weeks st with
    | .ok st1 uid => .cont (commitAll { st1 with usersC := setC st1.usersC uname uid })
    | .failed st1 => .cont (rollbackAll st1)
    | .tripped st1 => .fatal st1
    | .crashed st1 => .crashed st1

/-- The state carried by a StepRes. -/
def stepState : StepRes → ScraperSt
  | .cont st => st
  | .fatal st => st
  | .crashed st => st

/-- Whether a StepRes is the fatal ScraperException. -/
def isFatal : StepRes → Bool
  | .fatal _ => true
  | _ => false

/-- Draw the next value from the random stream. -/
def nextRand (st : ScraperSt) : Nat × ScraperSt :=
  match st.rngList with
  | [] => (0, st)
  | r :: rest => (r, { st with rngList := rest })

/-- random.choice over a nonempty list, driven by one stream value. -/
def choiceL (r : Nat) (l : List String) : String :=
  l.getD (r % l.length) ""

/-- Rotation used to model random.sample. -/
def rotateL (x : List String) (r : Nat) : List String :=
  match x with
  | [] => []
  | _ => x.drop (r % x.length) ++ x.take (r % x.length)

/-- n_of_x (line 360): a sample of at most n items of x, modelled as a
    rotation followed by take, with the same size contract as
    random.sample(x, min(len(x), n)). -/
def n_of_x (r n : Nat) (x : List String) : List String :=
  (rotateL x r).take (min n x.length)

/-- queue.pop() (line 370): python list.pop removes the last element. -/
def popLast (q : List String) : Option (String × List String) :=
  match q.reverse with
  | [] => none
  | x :: r => some (x, r.reverse)

/-- Results of the run loop of Scraper.run (lines 365-377): done is normal
    termination with the member limit reached; exhausted is the
    ScraperException raised at line 377 when the user pool is depleted;
    fatal is the ScraperException propagating from scrape_user at the
    error limit; crashed is any other propagating exception (including a
    pylast error raised by the unguarded get_friends call at line 369);
    outOfFuel means the fuel bound was reached with the loop still
    running. -/
inductive RunRes where
  | done (st : ScraperSt)
  | exhausted (st : ScraperSt)
  | fatal (st : ScraperSt)
  | crashed (st : ScraperSt)
  | outOfFuel (st : ScraperSt)
deriving DecidableEq

/-- The state carried by a RunRes. -/
def runState : RunRes → ScraperSt
  | .done st => st
  | .exhausted st => st
  | .fatal st => st
  | .crashed st => st
  | .outOfFuel st => st

/-- The while loop of Scraper.run (lines 365-377), fuel-indexed.  The loop
    guard is user_pool() and more_work() (lines 362-363); one iteration of
    the inner replenish loop (lines 366-369) consumes one unit of fuel and
    returns to the head, which re-checks a guard the replenish cannot have
    changed. -/
def runLoop (api : Api) (cfg : Cfg) (weeks : List (String × String)) :
    Nat → List String → ScraperSt → RunRes
  | 0, _, st => .outOfFuel st
  | fuel + 1, queue, st =>
      if queue.length + lenC st.usersC = 0 ∨ ¬ lenC st.usersC < cfg.limit then
        if queue.length + lenC st.usersC = 0 then .exhausted st else .done st
      else
        match popLast queue with
        | none =>
            let r1 := nextRand st
            let uname := choiceL r1.1 (keysC r1.2.usersC)
            match api.friendsOf uname with
            | .error _ => .crashed r1.2
            | .ok fr =>
                let r2 := nextRand r1.2
                runLoop api cfg weeks fuel (n_of_x r2.1 10 fr) r2.2
        | some (uname, rest) =>
            match visitStep api cfg weeks uname st with
            | .cont st1 => runLoop api cfg weeks fuel rest st1
            | .fatal st1 => .fatal st1
            | .crashed st1 => .crashed st1

/-! ## The reconciler (Scraper.rescrape, lines 319-338) -/

/-- get_scraped (lines 330-332): the distinct weekfrom values already
    persisted for a member id. -/
def scrapedWeeks (db : Db) (uid : Nat) : List String :=
  ((db.weekly.filter (fun r => r.user == uid)).map (fun r => r.weekfrom)).dedup

/-- Result of Scraper.rescrape: ok carries the state and the number of
    scrape_user invocations made; nameError is the NameError raised by
    line 337, where LOGGER.debug is passed the unbound variable name. -/
inductive RescrapeRes where
  | ok (st : ScraperSt) (visits : Nat)
  | nameError (st : ScraperSt)
deriving DecidableEq

/-- The member loop of Scraper.rescrape (lines 334-338), iterating
    users.items() in committed order.  When the missing-week set tbd is
    nonempty the next statement executed is LOGGER.debug("Rescraping user
    %s", name) at line 337; no variable name is bound anywhere in scope,
    so the call raises NameError before scrape_user can run, and line 338
    (which would also look weekpair up by week start although it is keyed
    by week end) is unreachable. -/
def rescrapeLoop (toscrape : List String) :
    List (String × Nat) → ScraperSt → RescrapeRes
  | [], st => .ok st 0
  | (_, uid) :: rest, st =>
      let tbd := toscrape.filter (fun s => decide (¬ s ∈ scrapedWeeks st.db uid))
      if tbd.isEmpty then rescrapeLoop toscrape rest st
      else .nameError st

/-- Scraper.rescrape (lines 319-338): toscrape is the set of week starts
    of the target list; then the member loop. -/
def rescrape (weeks : List (String × String)) (st : ScraperSt) : RescrapeRes :=
  let toscrape := (weeks.map Prod.fst).dedup
  rescrapeLoop toscrape st.usersC.store st

/-! ## The week selector (Scraper._get_weeks, lines 262-279) -/

/-- Scraper._get_weeks: fetch the weekly chart calendar of the fixed
    member RJ (line 277) and keep the weeks whose formatted start matches
    the date pattern.  The configured seed member cfg.username is not
    consulted. -/
def get_weeks (api : Api) (cfg : Cfg) : Except ApiErr (List (String × String)) :=
  match api.chartDates "RJ" with
  | .error e => .error e
  | .ok ws => .ok (ws.filter (fun w => cfg.dateMatch w.1))

/-! ## Scraper.run and initial state -/

/-- Result of Scraper.run (lines 346-377) as a whole. -/
inductive MainRes where
  | weeksError (e : ApiErr)
  | rescrapeNameError (st : ScraperSt)
  | loop (r : RunRes)
deriving DecidableEq

/-- Scraper.run: compute the target weeks, reconcile, seed the queue with
    the configured username only when no member is committed yet
    (lines 354-357), then the walk. -/
def runMain (api : Api) (cfg : Cfg) (fuel : Nat) (st : ScraperSt) : MainRes :=
  match get_weeks api cfg with
  | .error e => .weeksError e
  | .ok weeks =>
      match rescrape weeks st with
      | .nameError st1 => .rescrapeNameError st1
      | .ok st1 _ =>
          let queue := if lenC st1.usersC = 0 then [cfg.username] else []
          .loop (runLoop api cfg weeks fuel queue st1)

/-- Cache construction from a table at Scraper.__init__ (lines 46-48):
    key row.name mapped to row.id. -/
def initCache (rows : List (Nat × String)) : Cache String Nat :=
  ⟨rows.map (fun p => (p.2, p.1)), []⟩

/-- The database produced by Scraper.initdb on a fresh file
    (lines 298-317): empty tables except the placeholder artist with the
    empty name, inserted first and thus holding id 1. -/
def freshDb : Db :=
  { users := [], artists := [(1, "")], tags := [], friends := [], artistTags := [],
    weekly := [], nextArtist := 2, nextTag := 1, nextFriend := 1 }

/-- A Scraper freshly constructed over freshDb.  The friends cache maps
    each committed (a, b) pair to its row id; on a fresh database it is
    empty.  rng seeds the random stream. -/
def freshInit (rng : List Nat) : ScraperSt :=
  { db := freshDb,
    usersC := initCache freshDb.users,
    artistsC := initCache freshDb.artists,
    tagsC := initCache freshDb.tags,
    friendsC := ⟨[], []⟩,
    errcnt := 0, errlog := 0, rngList := rng }

/-! ## Basic lemmas about association lists and caches -/

theorem alookup_append {K V : Type} [DecidableEq K] (l1 l2 : List (K × V)) (k : K) :
    alookup (l1 ++ l2) k =
      match alookup l1 k with
      | some v => some v
      | none => alookup l2 k := by
  induction l1 with
  | nil => simp [alookup]
  | cons p rest ih =>
      obtain ⟨k1, v1⟩ := p
      by_cases h : k = k1 <;> simp [alookup, h, ih]

theorem alookup_eraseKey_self {K V : Type} [DecidableEq K] (k : K) (l : List (K × V)) :
    alookup (eraseKey k l) k = none := by
  induction l with
  | nil => rfl
  | cons p rest ih =>
      obtain ⟨k1, v1⟩ := p
      simp only [eraseKey, List.filter_cons, decide_not] at ih ⊢
      by_cases h : k1 = k
      · simp [h, ih]
      · have hne : ¬ k = k1 := fun hh => h hh.symm
        simp [h, alookup, hne, ih]

theorem alookup_eraseKey_ne {K V : Type} [DecidableEq K] (k k2 : K) (l : List (K × V))
    (h : k2 ≠ k) : alookup (eraseKey k l) k2 = alookup l k2 := by
  induction l with
  | nil => rfl
  | cons p rest ih =>
      obtain ⟨k1, v1⟩ := p
      simp only [eraseKey, List.filter_cons, decide_not] at ih ⊢
      by_cases h1 : k1 = k
      · subst h1
        simp [alookup, h, ih]
      · by_cases h2 : k2 = k1
        · simp [alookup, h1, h2]
        · simp [alookup, h1, h2, ih]

theorem alookup_eq_none_iff {K V : Type} [DecidableEq K] (l : List (K × V)) (k : K) :
    alookup l k = none ↔ k ∉ l.map Prod.fst := by
  induction l with
  | nil => simp [alookup]
  | cons p rest ih =>
      obtain ⟨k1, v1⟩ := p
      by_cases h : k = k1 <;> simp [alookup, h, ih]

theorem alookup_isSome_iff {K V : Type} [DecidableEq K] (l : List (K × V)) (k : K) :
    (alookup l k).isSome = true ↔ k ∈ l.map Prod.fst := by
  induction l with
  | nil => simp [alookup]
  | cons p rest ih =>
      obtain ⟨k1, v1⟩ := p
      by_cases h : k = k1 <;> simp [alookup, h, ih]

theorem alookup_filter_key {K V : Type} [DecidableEq K] (p : K × V → Bool)
    (l : List (K × V)) (k : K) (h : ∀ v, p (k, v) = true) :
    alookup (l.filter p) k = alookup l k := by
  induction l with
  | nil => simp
  | cons q rest ih =>
      obtain ⟨k1, v1⟩ := q
      by_cases hk : k = k1
      · subst hk
        have := h v1
        simp [List.filter, this, alookup, ih]
      · rcases hp : p (k1, v1) with _ | _
        · simp [List.filter, hp, alookup, hk, ih]
        · simp [List.filter, hp, alookup, hk, ih]

theorem getC_setC_self {K V : Type} [DecidableEq K] (c : Cache K V) (k : K) (v : V) :
    getC (setC c k v) k = some v := by
  simp [getC, setC, alookup]

theorem getC_setC_ne {K V : Type} [DecidableEq K] (c : Cache K V) (k k2 : K) (v : V)
    (h : k2 ≠ k) : getC (setC c k v) k2 = getC c k2 := by
  simp [getC, setC, alookup, h, alookup_eraseKey_ne k k2 c.tmp h]

theorem setC_store {K V : Type} [DecidableEq K] (c : Cache K V) (k : K) (v : V) :
    (setC c k v).store = c.store := rfl

theorem getC_commitC {K V : Type} [DecidableEq K] (c : Cache K V) (k : K) :
    getC (commitC c) k = getC c k := by
  rcases ht : alookup c.tmp k with _ | v
  · have hfk : alookup (c.store.filter (fun p => (alookup c.tmp p.1).isNone)) k
        = alookup c.store k := by
      apply alookup_filter_key
      intro v
      simp [ht]
    simp [getC, commitC, alookup, alookup_append, ht, hfk]
  · simp [getC, commitC, alookup, alookup_append, ht]

theorem getC_rollbackC {K V : Type} [DecidableEq K] (c : Cache K V) (k : K) :
    getC (rollbackC c) k = alookup c.store k := by
  simp [getC, rollbackC, alookup]

theorem getC_of_tmp_nil {K V : Type} [DecidableEq K] (c : Cache K V) (k : K)
    (h : c.tmp = []) : getC c k = alookup c.store k := by
  simp [getC, h, alookup]

theorem rollbackC_eq_self {K V : Type} (c : Cache K V) (h : c.tmp = []) :
    rollbackC c = c := by
  cases c
  simp_all [rollbackC]

theorem commitC_tmp {K V : Type} [DecidableEq K] (c : Cache K V) : (commitC c).tmp = [] := rfl

/-! ## Invariants relating caches and store -/

/-- The users cache shows a name exactly when a Users row with that name
    exists among the writes of the open transaction or the committed
    store. -/
def UsersOk (st : ScraperSt) : Prop :=
  ∀ n, (getC st.usersC n).isSome = true ↔ n ∈ userNames st.db

def ArtistsOk (st : ScraperSt) : Prop :=
  ∀ n, (getC st.artistsC n).isSome = true ↔ n ∈ artistNames st.db

def TagsOk (st : ScraperSt) : Prop :=
  ∀ n, (getC st.tagsC n).isSome = true ↔ n ∈ tagNames st.db

def FriendsOk (st : ScraperSt) : Prop :=
  ∀ p, (getC st.friendsC p).isSome = true ↔ p ∈ st.db.friends

/-- Canonical-order and uniqueness invariant of the Friends table. -/
def EdgesOk (db : Db) : Prop :=
  (∀ p ∈ db.friends, p.1 ≤ p.2) ∧ db.friends.Nodup

/-- The placeholder artist row with the empty name exists. -/
def SentinelOk (db : Db) : Prop :=
  "" ∈ artistNames db

def tmpsEmpty (st : ScraperSt) : Prop :=
  st.usersC.tmp = [] ∧ st.artistsC.tmp = [] ∧ st.tagsC.tmp = [] ∧ st.friendsC.tmp = []

def Consistent (st : ScraperSt) : Prop :=
  UsersOk st ∧ ArtistsOk st ∧ TagsOk st ∧ FriendsOk st

/-- The quiescent invariant of the crawl between loop iterations. -/
def GoodSt (st : ScraperSt) : Prop :=
  Consistent st ∧ tmpsEmpty st ∧ EdgesOk st.db ∧ SentinelOk st.db

/-! ## Frame lemmas: what the visit body never touches

  Between entering scrape_user and the caller running _cache_sync, the
  users cache, the committed layers of the other three caches, the error
  counters and the random stream are never modified. -/

def BodyFrame (st st2 : ScraperSt) : Prop :=
  st2.usersC = st.usersC ∧ st2.artistsC.store = st.artistsC.store ∧
  st2.tagsC.store = st.tagsC.store ∧ st2.friendsC.store = st.friendsC.store ∧
  st2.errcnt = st.errcnt ∧ st2.errlog = st.errlog ∧ st2.rngList = st.rngList

theorem BodyFrame.rfl (st : ScraperSt) : BodyFrame st st := by simp [BodyFrame]

theorem BodyFrame.trans {a b c : ScraperSt} (h1 : BodyFrame a b) (h2 : BodyFrame b c) :
    BodyFrame a c := by
  obtain ⟨u1, a1, t1, f1, e1, l1, r1⟩ := h1
  obtain ⟨u2, a2, t2, f2, e2, l2, r2⟩ := h2
  exact ⟨u2.trans u1, a2.trans a1, t2.trans t1, f2.trans f1, e2.trans e1, l2.trans l1,
    r2.trans r1⟩

theorem create_user_frame (api : Api) (uname : String) (st : ScraperSt) :
    BodyFrame st (VRes.state (create_user api uname st)) := by
  unfold create_user
  rcases api.userInfo uname with e | uid <;> simp [VRes.state, BodyFrame, addUserRow]

theorem tagsLoop_frame (aid : Nat) (tags : List String) (st : ScraperSt) :
    BodyFrame st (tagsLoop aid tags st) := by
  induction tags generalizing st with
  | nil => exact BodyFrame.rfl st
  | cons tag rest ih =>
      simp only [tagsLoop]
      rcases hg : getC st.tagsC tag with _ | tid
      · simp only [hg]
        refine BodyFrame.trans ?_ (ih _)
        simp [BodyFrame, addArtistTag, cacheTag, create_tag, setC_store]
      · simp only [hg]
        refine BodyFrame.trans ?_ (ih _)
        simp [BodyFrame, addArtistTag]

theorem scrape_artist_frame (api : Api) (name : String) (st : ScraperSt) :
    BodyFrame st (VRes.state (scrape_artist api name st)) := by
  unfold scrape_artist
  rcases api.artistInfo name with e | tags0
  · simp [VRes.state, BodyFrame]
  · simp only [VRes.state]
    refine BodyFrame.trans ?_ (tagsLoop_frame _ _ _)
    simp [BodyFrame, addArtistRow]

theorem chartLoop_frame (api : Api) (uid : Nat) (wf : String) (chart : List (String × Nat))
    (st : ScraperSt) : BodyFrame st (VRes.state (chartLoop api uid wf chart st)) := by
  induction chart generalizing st with
  | nil => exact BodyFrame.rfl st
  | cons entry rest ih =>
      obtain ⟨aname, cnt⟩ := entry
      simp only [chartLoop]
      rcases hg : getC st.artistsC aname with _ | aid
      · simp only [hg]
        rcases hs : scrape_artist api aname st with ⟨st1, aid⟩ | ⟨e, st1⟩
        · simp only [hs]
          have hf := scrape_artist_frame api aname st
          rw [hs] at hf
          simp only [VRes.state] at hf
          refine BodyFrame.trans ?_ (ih _)
          refine BodyFrame.trans hf ?_
          simp [BodyFrame, addWeeklyRow, cacheArtist, setC_store]
        · simp only [hs]
          have hf := scrape_artist_frame api aname st
          rw [hs] at hf
          simpa [VRes.state] using hf
      · simp only [hg]
        refine BodyFrame.trans ?_ (ih _)
        simp [BodyFrame, addWeeklyRow]

theorem scrape_week_frame (api : Api) (uname : String) (uid : Nat) (wf wt : String)
    (st : ScraperSt) : BodyFrame st (VRes.state (scrape_week api uname uid wf wt st)) := by
  unfold scrape_week
  rcases api.weeklyChart uname wf wt with e | chart
  · simp [VRes.state, BodyFrame]
  · rcases chart with _ | ⟨entry, rest⟩
    · rcases getC st.artistsC "" with _ | sid
      · simp [VRes.state, BodyFrame]
      · simp [VRes.state, BodyFrame, addWeeklyRow]
    · exact chartLoop_frame api uid wf (entry :: rest) st

theorem weeksLoop_frame (api : Api) (uname : String) (uid : Nat)
    (weeks : List (String × String)) (st : ScraperSt) :
    BodyFrame st (VRes.state (weeksLoop api uname uid weeks st)) := by
  induction weeks generalizing st with
  | nil => exact BodyFrame.rfl st
  | cons wk rest ih =>
      obtain ⟨wf, wt⟩ := wk
      simp only [weeksLoop]
      rcases hs : scrape_week api uname uid wf wt st with ⟨st1, a⟩ | ⟨e, st1⟩
      · simp only [hs]
        have hf := scrape_week_frame api uname uid wf wt st
        rw [hs] at hf
        simp only [VRes.state] at hf
        exact BodyFrame.trans hf (ih _)
      · simp only [hs]
        have hf := scrape_week_frame api uname uid wf wt st
        rw [hs] at hf
        simpa [VRes.state] using hf

theorem friendsLoop_frame (uid : Nat) (fr : List String) (st : ScraperSt) :
    BodyFrame st (friendsLoop uid fr st) := by
  induction fr generalizing st with
  | nil => exact BodyFrame.rfl st
  | cons f rest ih =>
      simp only [friendsLoop]
      rcases hg : getC st.usersC f with _ | fid
      · simp only [hg]
        exact ih st
      · simp only [hg]
        rcases hp : getC st.friendsC (if uid ≤ fid then (uid, fid) else (fid, uid)) with _ | x
        · simp only [hp]
          refine BodyFrame.trans ?_ (ih _)
          simp [BodyFrame, addFriendRow, setC_store]
        · simp only [hp]
          exact ih st

theorem scrape_friends_frame (api : Api) (uname : String) (uid : Nat) (st : ScraperSt) :
    BodyFrame st (VRes.state (scrape_friends api uname uid st)) := by
  unfold scrape_friends
  rcases api.friendsOf uname with e | fr
  · simp [VRes.state, BodyFrame]
  · simp only [VRes.state]
    exact friendsLoop_frame uid fr st

theorem body_stages_frame (api : Api) (cfg : Cfg) (uname : String)
    (weeks : List (String × String)) (st st1 : ScraperSt) (uid : Nat)
    (h1 : BodyFrame st st1) :
    BodyFrame st (VRes.state
      (match (if cfg.do_connect then scrape_friends api uname uid st1 else VRes.ok st1 ()) with
        | .err e st2 => VRes.err e st2
        | .ok st2 _ =>
            match weeksLoop api uname uid weeks st2 with
            | .err e st2 => VRes.err e st2
            | .ok st3 _ => VRes.ok st3 uid)) := by
  have hconn : ∀ st2 r, (if cfg.do_connect then scrape_friends api uname uid st1
      else VRes.ok st1 ()) = r → r.state = st2 → BodyFrame st1 st2 := by
    intro st2 r hfc hst
    by_cases hdc : cfg.do_connect
    · have hf := scrape_friends_frame api uname uid st1
      rw [if_pos hdc] at hfc
      rw [hfc, hst] at hf
      exact hf
    · rw [if_neg hdc] at hfc
      rw [← hfc] at hst
      simp only [VRes.state] at hst
      rw [← hst]
      exact BodyFrame.rfl st1
  split
  next e st2 hfc =>
    simp only [VRes.state]
    exact BodyFrame.trans h1 (hconn st2 _ hfc rfl)
  next st2 a hfc =>
    have h2 : BodyFrame st1 st2 := hconn st2 _ hfc rfl
    split
    next st3 b hw =>
      have hf := weeksLoop_frame api uname uid weeks st2
      rw [hw] at hf
      simp only [VRes.state] at hf ⊢
      exact BodyFrame.trans h1 (BodyFrame.trans h2 hf)
    next e2 st3 hw =>
      have hf := weeksLoop_frame api uname uid weeks st2
      rw [hw] at hf
      simp only [VRes.state] at hf ⊢
      exact BodyFrame.trans h1 (BodyFrame.trans h2 hf)

theorem scrape_user_body_frame (api : Api) (cfg : Cfg) (uname : String)
    (weeks : List (String × String)) (st : ScraperSt) :
    BodyFrame st (VRes.state (scrape_user_body api cfg uname weeks st)) := by
  simp only [scrape_user_body]
  rcases hg : getC st.usersC uname with _ | uid0
  · simp only [hg]
    rcases hc : create_user api uname st with ⟨st1, uid⟩ | ⟨e, st1⟩
    · simp only [hc]
      have hf := create_user_frame api uname st
      rw [hc] at hf
      simp only [VRes.state] at hf
      exact body_stages_frame api cfg uname weeks st st1 uid hf
    · simp only [hc]
      have hf := create_user_frame api uname st
      rw [hc] at hf
      simpa [VRes.state] using hf
  · simp only [hg]
    exact body_stages_frame api cfg uname weeks st st uid0 (BodyFrame.rfl st)

/-! ## Field lemmas for the row-insertion helpers -/

@[simp] theorem addUserRow_usersC (uid : Nat) (uname : String) (st : ScraperSt) :
    (addUserRow uid uname st).usersC = st.usersC := rfl
@[simp] theorem addUserRow_artistsC (uid : Nat) (uname : String) (st : ScraperSt) :
    (addUserRow uid uname st).artistsC = st.artistsC := rfl
@[simp] theorem addUserRow_tagsC (uid : Nat) (uname : String) (st : ScraperSt) :
    (addUserRow uid uname st).tagsC = st.tagsC := rfl
@[simp] theorem addUserRow_friendsC (uid : Nat) (uname : String) (st : ScraperSt) :
    (addUserRow uid uname st).friendsC = st.friendsC := rfl
@[simp] theorem addUserRow_users (uid : Nat) (uname : String) (st : ScraperSt) :
    (addUserRow uid uname st).db.users = st.db.users ++ [(uid, uname)] := rfl
@[simp] theorem addUserRow_artists (uid : Nat) (uname : String) (st : ScraperSt) :
    (addUserRow uid uname st).db.artists = st.db.artists := rfl
@[simp] theorem addUserRow_tags (uid : Nat) (uname : String) (st : ScraperSt) :
    (addUserRow uid uname st).db.tags = st.db.tags := rfl
@[simp] theorem addUserRow_friends (uid : Nat) (uname : String) (st : ScraperSt) :
    (addUserRow uid uname st).db.friends = st.db.friends := rfl
@[simp] theorem addUserRow_weekly (uid : Nat) (uname : String) (st : ScraperSt) :
    (addUserRow uid uname st).db.weekly = st.db.weekly := rfl

@[simp] theorem cacheTag_db (tag : String) (tid : Nat) (st : ScraperSt) :
    (cacheTag tag tid st).db = st.db := rfl
@[simp] theorem cacheTag_usersC (tag : String) (tid : Nat) (st : ScraperSt) :
    (cacheTag tag tid st).usersC = st.usersC := rfl
@[simp] theorem cacheTag_artistsC (tag : String) (tid : Nat) (st : ScraperSt) :
    (cacheTag tag tid st).artistsC = st.artistsC := rfl
@[simp] theorem cacheTag_friendsC (tag : String) (tid : Nat) (st : ScraperSt) :
    (cacheTag tag tid st).friendsC = st.friendsC := rfl
@[simp] theorem cacheTag_tagsC (tag : String) (tid : Nat) (st : ScraperSt) :
    (cacheTag tag tid st).tagsC = setC st.tagsC tag tid := rfl

@[simp] theorem addArtistTag_usersC (aid tid : Nat) (st : ScraperSt) :
    (addArtistTag aid tid st).usersC = st.usersC := rfl
@[simp] theorem addArtistTag_artistsC (aid tid : Nat) (st : ScraperSt) :
    (addArtistTag aid tid st).artistsC = st.artistsC := rfl
@[simp] theorem addArtistTag_tagsC (aid tid : Nat) (st : ScraperSt) :
    (addArtistTag aid tid st).tagsC = st.tagsC := rfl
@[simp] theorem addArtistTag_friendsC (aid tid : Nat) (st : ScraperSt) :
    (addArtistTag aid tid st).friendsC = st.friendsC := rfl
@[simp] theorem addArtistTag_users (aid tid : Nat) (st : ScraperSt) :
    (addArtistTag aid tid st).db.users = st.db.users := rfl
@[simp] theorem addArtistTag_artists (aid tid : Nat) (st : ScraperSt) :
    (addArtistTag aid tid st).db.artists = st.db.artists := rfl
@[simp] theorem addArtistTag_tags (aid tid : Nat) (st : ScraperSt) :
    (addArtistTag aid tid st).db.tags = st.db.tags := rfl
@[simp] theorem addArtistTag_friends (aid tid : Nat) (st : ScraperSt) :
    (addArtistTag aid tid st).db.friends = st.db.friends := rfl
@[simp] theorem addArtistTag_weekly (aid tid : Nat) (st : ScraperSt) :
    (addArtistTag aid tid st).db.weekly = st.db.weekly := rfl

@[simp] theorem create_tag_usersC (tag : String) (st : ScraperSt) :
    (create_tag tag st).1.usersC = st.usersC := rfl
@[simp] theorem create_tag_artistsC (tag : String) (st : ScraperSt) :
    (create_tag tag st).1.artistsC = st.artistsC := rfl
@[simp] theorem create_tag_tagsC (tag : String) (st : ScraperSt) :
    (create_tag tag st).1.tagsC = st.tagsC := rfl
@[simp] theorem create_tag_friendsC (tag : String) (st : ScraperSt) :
    (create_tag tag st).1.friendsC = st.friendsC := rfl
@[simp] theorem create_tag_users (tag : String) (st : ScraperSt) :
    (create_tag tag st).1.db.users = st.db.users := rfl
@[simp] theorem create_tag_artists (tag : String) (st : ScraperSt) :
    (create_tag tag st).1.db.artists = st.db.artists := rfl
@[simp] theorem create_tag_tags (tag : String) (st : ScraperSt) :
    (create_tag tag st).1.db.tags = st.db.tags ++ [(st.db.nextTag, tag)] := rfl
@[simp] theorem create_tag_friends (tag : String) (st : ScraperSt) :
    (create_tag tag st).1.db.friends = st.db.friends := rfl
@[simp] theorem create_tag_weekly (tag : String) (st : ScraperSt) :
    (create_tag tag st).1.db.weekly = st.db.weekly := rfl
@[simp] theorem create_tag_id (tag : String) (st : ScraperSt) :
    (create_tag tag st).2 = st.db.nextTag := rfl

@[simp] theorem addArtistRow_usersC (name : String) (st : ScraperSt) :
    (addArtistRow name st).1.usersC = st.usersC := rfl
@[simp] theorem addArtistRow_artistsC (name : String) (st : ScraperSt) :
    (addArtistRow name st).1.artistsC = st.artistsC := rfl
@[simp] theorem addArtistRow_tagsC (name : String) (st : ScraperSt) :
    (addArtistRow name st).1.tagsC = st.tagsC := rfl
@[simp] theorem addArtistRow_friendsC (name : String) (st : ScraperSt) :
    (addArtistRow name st).1.friendsC = st.friendsC := rfl
@[simp] theorem addArtistRow_users (name : String) (st : ScraperSt) :
    (addArtistRow name st).1.db.users = st.db.users := rfl
@[simp] theorem addArtistRow_artists (name : String) (st : ScraperSt) :
    (addArtistRow name st).1.db.artists = st.db.artists ++ [(st.db.nextArtist, name)] := rfl
@[simp] theorem addArtistRow_tags (name : String) (st : ScraperSt) :
    (addArtistRow name st).1.db.tags = st.db.tags := rfl
@[simp] theorem addArtistRow_friends (name : String) (st : ScraperSt) :
    (addArtistRow name st).1.db.friends = st.db.friends := rfl
@[simp] theorem addArtistRow_weekly (name : String) (st : ScraperSt) :
    (addArtistRow name st).1.db.weekly = st.db.weekly := rfl
@[simp] theorem addArtistRow_id (name : String) (st : ScraperSt) :
    (addArtistRow name st).2 = st.db.nextArtist := rfl

@[simp] theorem addWeeklyRow_usersC (uid aid : Nat) (wf : String) (cnt : Nat) (st : ScraperSt) :
    (addWeeklyRow uid aid wf cnt st).usersC = st.usersC := rfl
@[simp] theorem addWeeklyRow_artistsC (uid aid : Nat) (wf : String) (cnt : Nat) (st : ScraperSt) :
    (addWeeklyRow uid aid wf cnt st).artistsC = st.artistsC := rfl
@[simp] theorem addWeeklyRow_tagsC (uid aid : Nat) (wf : String) (cnt : Nat) (st : ScraperSt) :
    (addWeeklyRow uid aid wf cnt st).tagsC = st.tagsC := rfl
@[simp] theorem addWeeklyRow_friendsC (uid aid : Nat) (wf : String) (cnt : Nat) (st : ScraperSt) :
    (addWeeklyRow uid aid wf cnt st).friendsC = st.friendsC := rfl
@[simp] theorem addWeeklyRow_users (uid aid : Nat) (wf : String) (cnt : Nat) (st : ScraperSt) :
    (addWeeklyRow uid aid wf cnt st).db.users = st.db.users := rfl
@[simp] theorem addWeeklyRow_artists (uid aid : Nat) (wf : String) (cnt : Nat) (st : ScraperSt) :
    (addWeeklyRow uid aid wf cnt st).db.artists = st.db.artists := rfl
@[simp] theorem addWeeklyRow_tags (uid aid : Nat) (wf : String) (cnt : Nat) (st : ScraperSt) :
    (addWeeklyRow uid aid wf cnt st).db.tags = st.db.tags := rfl
@[simp] theorem addWeeklyRow_friends (uid aid : Nat) (wf : String) (cnt : Nat) (st : ScraperSt) :
    (addWeeklyRow uid aid wf cnt st).db.friends = st.db.friends := rfl
@[simp] theorem addWeeklyRow_weekly (uid aid : Nat) (wf : String) (cnt : Nat) (st : ScraperSt) :
    (addWeeklyRow uid aid wf cnt st).db.weekly = st.db.weekly ++ [⟨uid, aid, wf, cnt⟩] := rfl

@[simp] theorem cacheArtist_db (aname : String) (aid : Nat) (st : ScraperSt) :
    (cacheArtist aname aid st).db = st.db := rfl
@[simp] theorem cacheArtist_usersC (aname : String) (aid : Nat) (st : ScraperSt) :
    (cacheArtist aname aid st).usersC = st.usersC := rfl
@[simp] theorem cacheArtist_artistsC (aname : String) (aid : Nat) (st : ScraperSt) :
    (cacheArtist aname aid st).artistsC = setC st.artistsC aname aid := rfl
@[simp] theorem cacheArtist_tagsC (aname : String) (aid : Nat) (st : ScraperSt) :
    (cacheArtist aname aid st).tagsC = st.tagsC := rfl
@[simp] theorem cacheArtist_friendsC (aname : String) (aid : Nat) (st : ScraperSt) :
    (cacheArtist aname aid st).friendsC = st.friendsC := rfl

@[simp] theorem addFriendRow_usersC (pair : Nat × Nat) (st : ScraperSt) :
    (addFriendRow pair st).usersC = st.usersC := rfl
@[simp] theorem addFriendRow_artistsC (pair : Nat × Nat) (st : ScraperSt) :
    (addFriendRow pair st).artistsC = st.artistsC := rfl
@[simp] theorem addFriendRow_tagsC (pair : Nat × Nat) (st : ScraperSt) :
    (addFriendRow pair st).tagsC = st.tagsC := rfl
@[simp] theorem addFriendRow_friendsC (pair : Nat × Nat) (st : ScraperSt) :
    (addFriendRow pair st).friendsC = setC st.friendsC pair st.db.nextFriend := rfl
@[simp] theorem addFriendRow_users (pair : Nat × Nat) (st : ScraperSt) :
    (addFriendRow pair st).db.users = st.db.users := rfl
@[simp] theorem addFriendRow_artists (pair : Nat × Nat) (st : ScraperSt) :
    (addFriendRow pair st).db.artists = st.db.artists := rfl
@[simp] theorem addFriendRow_tags (pair : Nat × Nat) (st : ScraperSt) :
    (addFriendRow pair st).db.tags = st.db.tags := rfl
@[simp] theorem addFriendRow_friends (pair : Nat × Nat) (st : ScraperSt) :
    (addFriendRow pair st).db.friends = st.db.friends ++ [pair] := rfl
@[simp] theorem addFriendRow_weekly (pair : Nat × Nat) (st : ScraperSt) :
    (addFriendRow pair st).db.weekly = st.db.weekly := rfl

/-! ## Congruence and single-step invariant lemmas -/

theorem UsersOk_of_eq {st st2 : ScraperSt} (hc : st2.usersC = st.usersC)
    (hd : st2.db.users = st.db.users) (h : UsersOk st) : UsersOk st2 := by
  intro n
  rw [UsersOk] at h
  rw [hc, userNames, hd]
  exact h n

theorem ArtistsOk_of_eq {st st2 : ScraperSt} (hc : st2.artistsC = st.artistsC)
    (hd : st2.db.artists = st.db.artists) (h : ArtistsOk st) : ArtistsOk st2 := by
  intro n
  rw [hc, artistNames, hd]
  exact h n

theorem TagsOk_of_eq {st st2 : ScraperSt} (hc : st2.tagsC = st.tagsC)
    (hd : st2.db.tags = st.db.tags) (h : TagsOk st) : TagsOk st2 := by
  intro n
  rw [hc, tagNames, hd]
  exact h n

theorem FriendsOk_of_eq {st st2 : ScraperSt} (hc : st2.friendsC = st.friendsC)
    (hd : st2.db.friends = st.db.friends) (h : FriendsOk st) : FriendsOk st2 := by
  intro p
  rw [hc, hd]
  exact h p

theorem EdgesOk_of_eq {d d2 : Db} (hd : d2.friends = d.friends) (h : EdgesOk d) :
    EdgesOk d2 := by
  rw [EdgesOk, hd]
  exact h

/-- Inserting a fresh tag row while caching its id preserves the tag
    invariant. -/
theorem TagsOk_newTag (st : ScraperSt) (tag : String) (hT : TagsOk st) :
    TagsOk (cacheTag tag (create_tag tag st).2 (create_tag tag st).1) := by
  intro n
  by_cases hn : n = tag
  · subst hn
    simp [getC_setC_self, tagNames, List.mem_append]
  · rw [cacheTag_tagsC, create_tag_tagsC, create_tag_id,
      getC_setC_ne st.tagsC tag n st.db.nextTag hn]
    rw [cacheTag_db]
    rw [tagNames, create_tag_tags]
    rw [hT n]
    simp [tagNames, hn]

/-- Recording a fresh friendship pair preserves the friends invariant. -/
theorem FriendsOk_addFriendRow (st : ScraperSt) (pair : Nat × Nat) (hF : FriendsOk st) :
    FriendsOk (addFriendRow pair st) := by
  intro q
  by_cases hq : q = pair
  · subst hq
    simp [getC_setC_self, List.mem_append]
  · rw [addFriendRow_friendsC, getC_setC_ne st.friendsC pair q st.db.nextFriend hq,
      addFriendRow_friends]
    rw [hF q]
    simp [hq]

/-- Recording a fresh, canonically ordered pair preserves the edge
    invariant. -/
theorem EdgesOk_addFriendRow (st : ScraperSt) (pair : Nat × Nat) (hE : EdgesOk st.db)
    (hsorted : pair.1 ≤ pair.2) (hnot : pair ∉ st.db.friends) :
    EdgesOk (addFriendRow pair st).db := by
  constructor
  · intro p hp
    rw [addFriendRow_friends] at hp
    rcases List.mem_append.mp hp with hin | hnew
    · exact hE.1 p hin
    · have : p = pair := by simpa using hnew
      subst this
      exact hsorted
  · rw [addFriendRow_friends]
    rw [List.nodup_append]
    refine ⟨hE.2, List.nodup_singleton pair, ?_⟩
    intro a ha hb
    have : a = pair := by simpa using hb
    subst this
    exact hnot ha

/-- Caching a freshly inserted artist id restores the artist invariant
    after the Artists row insert. -/
theorem ArtistsOk_cached (st st2 : ScraperSt) (aname : String) (aid : Nat)
    (hA : ArtistsOk st)
    (hc : st2.artistsC = st.artistsC)
    (hd : st2.db.artists = st.db.artists ++ [(aid, aname)]) :
    ArtistsOk (cacheArtist aname aid st2) := by
  intro n
  by_cases hn : n = aname
  · subst hn
    simp [getC_setC_self, artistNames, hd, List.mem_append]
  · rw [cacheArtist_artistsC, getC_setC_ne st2.artistsC aname n aid hn, hc]
    rw [cacheArtist_db]
    rw [artistNames, hd]
    rw [hA n]
    simp [artistNames, hn]

/-! ## Loop specification lemmas -/

theorem tagsLoop_spec (aid : Nat) (tags : List String) (st : ScraperSt) :
    (tagsLoop aid tags st).artistsC = st.artistsC ∧
    (tagsLoop aid tags st).friendsC = st.friendsC ∧
    (tagsLoop aid tags st).db.users = st.db.users ∧
    (tagsLoop aid tags st).db.artists = st.db.artists ∧
    (tagsLoop aid tags st).db.friends = st.db.friends ∧
    (tagsLoop aid tags st).db.weekly = st.db.weekly ∧
    (TagsOk st → TagsOk (tagsLoop aid tags st)) := by
  induction tags generalizing st with
  | nil => simp [tagsLoop]
  | cons tag rest ih =>
      simp only [tagsLoop]
      rcases hg : getC st.tagsC tag with _ | tid
      · simp only [hg]
        obtain ⟨a1, f1, u1, ar1, fr1, w1, inv1⟩ :=
          ih (addArtistTag aid (create_tag tag st).2
                (cacheTag tag (create_tag tag st).2 (create_tag tag st).1))
        refine ⟨?_, ?_, ?_, ?_, ?_, ?_, ?_⟩
        · rw [a1]; simp
        · rw [f1]; simp
        · rw [u1]; simp
        · rw [ar1]; simp
        · rw [fr1]; simp
        · rw [w1]; simp
        · intro hT
          refine inv1 (TagsOk_of_eq ?_ ?_ (TagsOk_newTag st tag hT))
          · simp
          · simp
      · simp only [hg]
        obtain ⟨a1, f1, u1, ar1, fr1, w1, inv1⟩ := ih (addArtistTag aid tid st)
        refine ⟨?_, ?_, ?_, ?_, ?_, ?_, ?_⟩
        · rw [a1]; simp
        · rw [f1]; simp
        · rw [u1]; simp
        · rw [ar1]; simp
        · rw [fr1]; simp
        · rw [w1]; simp
        · intro hT
          refine inv1 (TagsOk_of_eq ?_ ?_ hT) <;> simp

theorem scrape_artist_spec (api : Api) (name : String) (st st2 : ScraperSt) (aid : Nat)
    (h : scrape_artist api name st = .ok st2 aid) :
    aid = st.db.nextArtist ∧
    st2.artistsC = st.artistsC ∧ st2.friendsC = st.friendsC ∧
    st2.db.users = st.db.users ∧
    st2.db.artists = st.db.artists ++ [(st.db.nextArtist, name)] ∧
    st2.db.friends = st.db.friends ∧ st2.db.weekly = st.db.weekly ∧
    (TagsOk st → TagsOk st2) := by
  unfold scrape_artist at h
  split at h
  · cases h
  · split at h
    · cases h
    · rename_i tags0 heq2
      cases h
      simp only [addArtistRow_id]
      obtain ⟨a1, f1, u1, ar1, fr1, w1, inv1⟩ :=
        tagsLoop_spec st.db.nextArtist tags0 (addArtistRow name st).1
      refine ⟨trivial, ?_, ?_, ?_, ?_, ?_, ?_, ?_⟩
      · rw [a1]; simp
      · rw [f1]; simp
      · rw [u1]; simp
      · rw [ar1]; simp
      · rw [fr1]; simp
      · rw [w1]; simp
      · intro hT
        refine inv1 (TagsOk_of_eq ?_ ?_ hT) <;> simp

theorem friendsLoop_spec (uid : Nat) (fr : List String) (st : ScraperSt) :
    (friendsLoop uid fr st).artistsC = st.artistsC ∧
    (friendsLoop uid fr st).tagsC = st.tagsC ∧
    (friendsLoop uid fr st).db.users = st.db.users ∧
    (friendsLoop uid fr st).db.artists = st.db.artists ∧
    (friendsLoop uid fr st).db.tags = st.db.tags ∧
    (friendsLoop uid fr st).db.weekly = st.db.weekly ∧
    (FriendsOk st → EdgesOk st.db →
       FriendsOk (friendsLoop uid fr st) ∧ EdgesOk (friendsLoop uid fr st).db) := by
  induction fr generalizing st with
  | nil => exact ⟨rfl, rfl, rfl, rfl, rfl, rfl, fun a b => ⟨a, b⟩⟩
  | cons f rest ih =>
      simp only [friendsLoop]
      rcases hg : getC st.usersC f with _ | fid
      · simp only [hg]
        exact ih st
      · simp only [hg]
        rcases hp : getC st.friendsC (if uid ≤ fid then (uid, fid) else (fid, uid)) with _ | x
        · simp only [hp]
          obtain ⟨a1, t1, u1, ar1, tg1, w1, inv1⟩ :=
            ih (addFriendRow (if uid ≤ fid then (uid, fid) else (fid, uid)) st)
          refine ⟨?_, ?_, ?_, ?_, ?_, ?_, ?_⟩
          · rw [a1]; simp
          · rw [t1]; simp
          · rw [u1]; simp
          · rw [ar1]; simp
          · rw [tg1]; simp
          · rw [w1]; simp
          · intro hF hE
            have hnot : (if uid ≤ fid then (uid, fid) else (fid, uid)) ∉ st.db.friends := by
              intro hin
              have := (hF _).mpr hin
              rw [hp] at this
              cases this
            have hsorted : (if uid ≤ fid then (uid, fid) else (fid, uid)).1 ≤
                (if uid ≤ fid then (uid, fid) else (fid, uid)).2 := by
              by_cases hle : uid ≤ fid
              · simp [hle]
              · simp only [if_neg hle]
                exact Nat.le_of_lt (Nat.lt_of_not_le hle)
            exact inv1 (FriendsOk_addFriendRow st _ hF)
              (EdgesOk_addFriendRow st _ hE hsorted hnot)
        · simp only [hp]
          exact ih st

theorem scrape_friends_spec (api : Api) (uname : String) (uid : Nat) (st st2 : ScraperSt)
    (a : Unit) (h : scrape_friends api uname uid st = .ok st2 a) :
    st2.artistsC = st.artistsC ∧ st2.tagsC = st.tagsC ∧
    st2.db.users = st.db.users ∧ st2.db.artists = st.db.artists ∧
    st2.db.tags = st.db.tags ∧ st2.db.weekly = st.db.weekly ∧
    (FriendsOk st → EdgesOk st.db → FriendsOk st2 ∧ EdgesOk st2.db) := by
  unfold scrape_friends at h
  split at h
  · cases h
  · rename_i fr heq
    cases h
    exact friendsLoop_spec uid fr st

/-! ## Weekly-row bookkeeping -/

/-- The WeeklyArtistChart rows of one member and week start. -/
def rowsFor (l : List WRow) (uid : Nat) (wf : String) : List WRow :=
  l.filter (fun r => r.user == uid && r.weekfrom == wf)

theorem rowsFor_append (l1 l2 : List WRow) (uid : Nat) (wf : String) :
    rowsFor (l1 ++ l2) uid wf = rowsFor l1 uid wf ++ rowsFor l2 uid wf := by
  simp [rowsFor, List.filter_append]

theorem rowsFor_all (l : List WRow) (uid : Nat) (wf : String)
    (h : ∀ r ∈ l, r.user = uid ∧ r.weekfrom = wf) : rowsFor l uid wf = l := by
  rw [rowsFor, List.filter_eq_self]
  intro r hr
  obtain ⟨h1, h2⟩ := h r hr
  simp [h1, h2]

theorem rowsFor_nil (l : List WRow) (uid : Nat) (wf : String)
    (h : ∀ r ∈ l, r.weekfrom ≠ wf) : rowsFor l uid wf = [] := by
  rw [rowsFor, List.filter_eq_nil_iff]
  intro r hr
  have := h r hr
  simp [this]

theorem chartLoop_spec (api : Api) (uid : Nat) (wf : String) (chart : List (String × Nat))
    (st st2 : ScraperSt) (a : Unit) (h : chartLoop api uid wf chart st = .ok st2 a) :
    st2.usersC = st.usersC ∧ st2.friendsC = st.friendsC ∧
    st2.db.users = st.db.users ∧ st2.db.friends = st.db.friends ∧
    (∃ suffix, st2.db.artists = st.db.artists ++ suffix) ∧
    (ArtistsOk st → TagsOk st → ArtistsOk st2 ∧ TagsOk st2) ∧
    (∀ k v, getC st.artistsC k = some v → getC st2.artistsC k = some v) ∧
    (∃ rows, st2.db.weekly = st.db.weekly ++ rows ∧ rows.length = chart.length ∧
       ∀ r ∈ rows, r.user = uid ∧ r.weekfrom = wf) := by
  induction chart generalizing st with
  | nil =>
      simp only [chartLoop] at h
      cases h
      refine ⟨rfl, rfl, rfl, rfl, ⟨[], by simp⟩, fun hA hT => ⟨hA, hT⟩, fun k v hv => hv,
        ⟨[], by simp⟩⟩
  | cons entry rest ih =>
      obtain ⟨aname, cnt⟩ := entry
      simp only [chartLoop] at h
      rcases hg : getC st.artistsC aname with _ | aid
      · rw [hg] at h
        simp only [] at h
        rcases hs : scrape_artist api aname st with ⟨stA, aid⟩ | ⟨e, stA⟩
        · rw [hs] at h
          simp only [] at h
          obtain ⟨haid, ha1, hf1, hu1, har1, hfr1, hw1, hT1⟩ :=
            scrape_artist_spec api aname st stA aid hs
          have husers := scrape_artist_frame api aname st
          rw [hs] at husers
          simp only [VRes.state] at husers
          obtain ⟨huC, _⟩ := husers
          obtain ⟨u2, f2, us2, fr2, ⟨suf2, hsuf2⟩, inv2, mono2, ⟨rows2, hrows2, hlen2, hmem2⟩⟩ :=
            ih (addWeeklyRow uid aid wf cnt (cacheArtist aname aid stA)) h
          refine ⟨?_, ?_, ?_, ?_, ?_, ?_, ?_, ?_⟩
          · rw [u2]; simp [huC]
          · rw [f2]; simp [hf1]
          · rw [us2]; simp [hu1]
          · rw [fr2]; simp [hfr1]
          · refine ⟨(st.db.nextArtist, aname) :: suf2, ?_⟩
            rw [hsuf2]
            simp [har1, haid]
          · intro hA hT
            apply inv2
            · have hbase : ArtistsOk (cacheArtist aname aid stA) :=
                ArtistsOk_cached st stA aname aid hA ha1 (haid ▸ har1)
              exact ArtistsOk_of_eq (by simp) (by simp) hbase
            · have hbase0 : TagsOk stA := hT1 hT
              have hbase : TagsOk (cacheArtist aname aid stA) :=
                TagsOk_of_eq (by simp) (by simp) hbase0
              exact TagsOk_of_eq (by simp) (by simp) hbase
          · intro k v hv
            apply mono2
            have hk : k ≠ aname := by
              intro hk
              rw [hk, hg] at hv
              cases hv
            rw [addWeeklyRow_artistsC, cacheArtist_artistsC,
              getC_setC_ne stA.artistsC aname k aid hk, ha1]
            exact hv
          · refine ⟨⟨uid, aid, wf, cnt⟩ :: rows2, ?_, ?_, ?_⟩
            · rw [hrows2]
              simp [hw1]
            · simp [hlen2]
            · intro r hr
              rcases List.mem_cons.mp hr with hr1 | hr2
              · subst hr1
                exact ⟨rfl, rfl⟩
              · exact hmem2 r hr2
        · rw [hs] at h
          simp only [] at h
          cases h
      · rw [hg] at h
        simp only [] at h
        obtain ⟨u2, f2, us2, fr2, ⟨suf2, hsuf2⟩, inv2, mono2, ⟨rows2, hrows2, hlen2, hmem2⟩⟩ :=
          ih (addWeeklyRow uid aid wf cnt st) h
        refine ⟨?_, ?_, ?_, ?_, ?_, ?_, ?_, ?_⟩
        · rw [u2]; simp
        · rw [f2]; simp
        · rw [us2]; simp
        · rw [fr2]; simp
        · refine ⟨suf2, ?_⟩
          rw [hsuf2]
          simp
        · intro hA hT
          apply inv2
          · exact ArtistsOk_of_eq (by simp) (by simp) hA
          · exact TagsOk_of_eq (by simp) (by simp) hT
        · intro k v hv
          apply mono2
          simpa using hv
        · refine ⟨⟨uid, aid, wf, cnt⟩ :: rows2, ?_, ?_, ?_⟩
          · rw [hrows2]
            simp
          · simp [hlen2]
          · intro r hr
            rcases List.mem_cons.mp hr with hr1 | hr2
            · subst hr1
              exact ⟨rfl, rfl⟩
            · exact hmem2 r hr2

theorem scrape_week_spec (api : Api) (uname : String) (uid : Nat) (wf wt : String)
    (st st2 : ScraperSt) (a : Unit) (h : scrape_week api uname uid wf wt st = .ok st2 a) :
    st2.usersC = st.usersC ∧ st2.friendsC = st.friendsC ∧
    st2.db.users = st.db.users ∧ st2.db.friends = st.db.friends ∧
    (∃ suffix, st2.db.artists = st.db.artists ++ suffix) ∧
    (ArtistsOk st → TagsOk st → ArtistsOk st2 ∧ TagsOk st2) ∧
    (∀ k v, getC st.artistsC k = some v → getC st2.artistsC k = some v) ∧
    (∃ rows, st2.db.weekly = st.db.weekly ++ rows ∧ rows ≠ [] ∧
       (∀ r ∈ rows, r.user = uid ∧ r.weekfrom = wf) ∧
       (∀ sid, getC st.artistsC "" = some sid → api.weeklyChart uname wf wt = .ok [] →
          rows = [⟨uid, sid, wf, 0⟩])) := by
  unfold scrape_week at h
  split at h
  · cases h
  · rename_i heqchart
    split at h
    · cases h
    · rename_i sid0 heqsid
      cases h
      refine ⟨by simp, by simp, by simp, by simp, ⟨[], by simp⟩, ?_, ?_, ?_⟩
      · intro hA hT
        exact ⟨ArtistsOk_of_eq (by simp) (by simp) hA, TagsOk_of_eq (by simp) (by simp) hT⟩
      · intro k v hv
        simpa using hv
      · refine ⟨[⟨uid, sid0, wf, 0⟩], by simp, by simp, ?_, ?_⟩
        · intro r hr
          have : r = ⟨uid, sid0, wf, 0⟩ := by simpa using hr
          subst this
          exact ⟨rfl, rfl⟩
        · intro sid hsid _
          rw [heqsid] at hsid
          cases hsid
          rfl
  · rename_i chart heqchart hne
    obtain ⟨u2, f2, us2, fr2, hsuf, inv2, mono2, ⟨rows2, hrows2, hlen2, hmem2⟩⟩ :=
      chartLoop_spec api uid wf chart st st2 a h
    refine ⟨u2, f2, us2, fr2, hsuf, inv2, mono2, ⟨rows2, hrows2, ?_, hmem2, ?_⟩⟩
    · intro hnil
      rw [hnil] at hlen2
      cases chart with
      | nil => exact heqchart rfl
      | cons e2 cr => simp at hlen2
    · intro sid hsid hempty
      rw [hne] at hempty
      cases hempty
      exact absurd rfl heqchart

theorem weeksLoop_spec (api : Api) (uname : String) (uid : Nat)
    (weeks : List (String × String)) (st st2 : ScraperSt) (a : Unit)
    (h : weeksLoop api uname uid weeks st = .ok st2 a) :
    st2.usersC = st.usersC ∧ st2.friendsC = st.friendsC ∧
    st2.db.users = st.db.users ∧ st2.db.friends = st.db.friends ∧
    (∃ suffix, st2.db.artists = st.db.artists ++ suffix) ∧
    (ArtistsOk st → TagsOk st → ArtistsOk st2 ∧ TagsOk st2) ∧
    (∀ k v, getC st.artistsC k = some v → getC st2.artistsC k = some v) ∧
    (∃ rows, st2.db.weekly = st.db.weekly ++ rows ∧
       ∀ r ∈ rows, r.user = uid ∧ r.weekfrom ∈ weeks.map Prod.fst) ∧
    (∀ sid, getC st.artistsC "" = some sid → (weeks.map Prod.fst).Nodup →
       ∀ wf wt, (wf, wt) ∈ weeks →
         ∃ radd, rowsFor st2.db.weekly uid wf = rowsFor st.db.weekly uid wf ++ radd ∧
           radd ≠ [] ∧
           (api.weeklyChart uname wf wt = .ok [] → radd = [⟨uid, sid, wf, 0⟩])) := by
  induction weeks generalizing st with
  | nil =>
      simp only [weeksLoop] at h
      cases h
      refine ⟨rfl, rfl, rfl, rfl, ⟨[], by simp⟩, fun hA hT => ⟨hA, hT⟩, fun k v hv => hv,
        ⟨[], by simp⟩, ?_⟩
      intro sid _ _ wf wt hmem
      cases hmem
  | cons wk rest ih =>
      obtain ⟨wf0, wt0⟩ := wk
      simp only [weeksLoop] at h
      rcases hs : scrape_week api uname uid wf0 wt0 st with ⟨st1, a1⟩ | ⟨e, st1⟩
      · rw [hs] at h
        simp only [] at h
        obtain ⟨u1, f1, us1, fr1, ⟨sufA, hsufA⟩, inv1, mono1,
          ⟨rows1, hrows1, hne1, hmem1, hemp1⟩⟩ :=
          scrape_week_spec api uname uid wf0 wt0 st st1 a1 hs
        obtain ⟨u2, f2, us2, fr2, ⟨sufB, hsufB⟩, inv2, mono2, ⟨rows2, hrows2, hmem2⟩, hper2⟩ :=
          ih st1 h
        refine ⟨?_, ?_, ?_, ?_, ?_, ?_, ?_, ?_, ?_⟩
        · rw [u2, u1]
        · rw [f2, f1]
        · rw [us2, us1]
        · rw [fr2, fr1]
        · refine ⟨sufA ++ sufB, ?_⟩
          rw [hsufB, hsufA, List.append_assoc]
        · intro hA hT
          obtain ⟨hA1, hT1⟩ := inv1 hA hT
          exact inv2 hA1 hT1
        · intro k v hv
          exact mono2 k v (mono1 k v hv)
        · refine ⟨rows1 ++ rows2, ?_, ?_⟩
          · rw [hrows2, hrows1, List.append_assoc]
          · intro r hr
            rcases List.mem_append.mp hr with h1 | h2
            · obtain ⟨hu, hw⟩ := hmem1 r h1
              refine ⟨hu, ?_⟩
              rw [hw]
              simp
            · obtain ⟨hu, hw⟩ := hmem2 r h2
              refine ⟨hu, ?_⟩
              simp only [List.map_cons, List.mem_cons]
              exact Or.inr hw
        · intro sid hsid hnodup wf wt hmem
          have hnodup0 : wf0 ∉ rest.map Prod.fst := by
            simp only [List.map_cons] at hnodup
            exact (List.nodup_cons.mp hnodup).1
          have hnodupr : (rest.map Prod.fst).Nodup := by
            simp only [List.map_cons] at hnodup
            exact (List.nodup_cons.mp hnodup).2
          have hsid1 : getC st1.artistsC "" = some sid := mono1 "" sid hsid
          rcases List.mem_cons.mp hmem with hhd | htl
          · have hwf : wf = wf0 := congrArg Prod.fst hhd
            have hwt : wt = wt0 := congrArg Prod.snd hhd
            subst hwf
            subst hwt
            refine ⟨rows1, ?_, hne1, hemp1 sid hsid⟩
            have hr2nil : rowsFor rows2 uid wf = [] := by
              apply rowsFor_nil
              intro r hr hweq
              obtain ⟨_, hw⟩ := hmem2 r hr
              rw [hweq] at hw
              exact hnodup0 hw
            have hr1all : rowsFor rows1 uid wf = rows1 := rowsFor_all rows1 uid wf hmem1
            rw [hrows2, hrows1, rowsFor_append, rowsFor_append, hr1all, hr2nil,
              List.append_nil]
          · have hwfmem : wf ∈ rest.map Prod.fst := by
              have := List.mem_map_of_mem Prod.fst htl
              simpa using this
            have hwfne : wf ≠ wf0 := by
              intro hq
              rw [hq] at hwfmem
              exact hnodup0 hwfmem
            obtain ⟨radd, heq, hner, hempr⟩ := hper2 sid hsid1 hnodupr wf wt htl
            refine ⟨radd, ?_, hner, hempr⟩
            have hr1nil : rowsFor rows1 uid wf = [] := by
              apply rowsFor_nil
              intro r hr hweq
              obtain ⟨_, hw⟩ := hmem1 r hr
              rw [hweq] at hw
              exact hwfne hw
            rw [heq, hrows1, rowsFor_append, hr1nil, List.append_nil]
      · rw [hs] at h
        simp only [] at h
        cases h

theorem create_user_spec (api : Api) (uname : String) (st stU : ScraperSt) (uidU : Nat)
    (h : create_user api uname st = .ok stU uidU) :
    api.userInfo uname = .ok uidU ∧ stU = addUserRow uidU uname st := by
  unfold create_user at h
  split at h
  · cases h
  · rename_i uid0 heq
    cases h
    exact ⟨heq, rfl⟩

theorem friends_stage_spec (api : Api) (cfg : Cfg) (uname : String) (uid : Nat)
    (st stF : ScraperSt) (aF : Unit)
    (h : (if cfg.do_connect then scrape_friends api uname uid st else VRes.ok st ()) =
      .ok stF aF) :
    stF.usersC = st.usersC ∧ stF.artistsC = st.artistsC ∧ stF.tagsC = st.tagsC ∧
    stF.db.users = st.db.users ∧ stF.db.artists = st.db.artists ∧ stF.db.tags = st.db.tags ∧
    stF.db.weekly = st.db.weekly ∧
    (FriendsOk st → EdgesOk st.db → FriendsOk stF ∧ EdgesOk stF.db) := by
  by_cases hdc : cfg.do_connect
  · rw [if_pos hdc] at h
    have hframe := scrape_friends_frame api uname uid st
    rw [h] at hframe
    simp only [VRes.state] at hframe
    obtain ⟨hu, _⟩ := hframe
    obtain ⟨ha, ht, hus, har, htg, hw, hinv⟩ := scrape_friends_spec api uname uid st stF aF h
    exact ⟨hu, ha, ht, hus, har, htg, hw, hinv⟩
  · rw [if_neg hdc] at h
    cases h
    exact ⟨rfl, rfl, rfl, rfl, rfl, rfl, rfl, fun a b => ⟨a, b⟩⟩

theorem scrape_user_body_spec (api : Api) (cfg : Cfg) (uname : String)
    (weeks : List (String × String)) (st st2 : ScraperSt) (uid : Nat)
    (h : scrape_user_body api cfg uname weeks st = .ok st2 uid)
    (hmem : getC st.usersC uname = none) :
    api.userInfo uname = .ok uid ∧
    st2.usersC = st.usersC ∧
    st2.db.users = st.db.users ++ [(uid, uname)] ∧
    (∃ suffix, st2.db.artists = st.db.artists ++ suffix) ∧
    (∀ k v, getC st.artistsC k = some v → getC st2.artistsC k = some v) ∧
    (ArtistsOk st → TagsOk st → FriendsOk st → EdgesOk st.db →
       ArtistsOk st2 ∧ TagsOk st2 ∧ FriendsOk st2 ∧ EdgesOk st2.db) ∧
    (∃ rows, st2.db.weekly = st.db.weekly ++ rows ∧
       ∀ r ∈ rows, r.user = uid ∧ r.weekfrom ∈ weeks.map Prod.fst) ∧
    (∀ sid, getC st.artistsC "" = some sid → (weeks.map Prod.fst).Nodup →
       ∀ wf wt, (wf, wt) ∈ weeks →
         ∃ radd, rowsFor st2.db.weekly uid wf = rowsFor st.db.weekly uid wf ++ radd ∧
           radd ≠ [] ∧
           (api.weeklyChart uname wf wt = .ok [] → radd = [⟨uid, sid, wf, 0⟩])) := by
  simp only [scrape_user_body] at h
  rw [hmem] at h
  simp only [] at h
  rcases hc : create_user api uname st with ⟨stU, uidU⟩ | ⟨e, stU⟩
  · rw [hc] at h
    simp only [] at h
    obtain ⟨hapi, hstU⟩ := create_user_spec api uname st stU uidU hc
    subst hstU
    rcases hf : (if cfg.do_connect then scrape_friends api uname uidU (addUserRow uidU uname st)
        else VRes.ok (addUserRow uidU uname st) ()) with ⟨stF, aF⟩ | ⟨e, stF⟩
    · rw [hf] at h
      simp only [] at h
      obtain ⟨fu, fa, ft, fus, far, ftg, fw, finv⟩ :=
        friends_stage_spec api cfg uname uidU (addUserRow uidU uname st) stF aF hf
      rcases hw : weeksLoop api uname uidU weeks stF with ⟨st3, aw⟩ | ⟨e, st3⟩
      · rw [hw] at h
        simp only [] at h
        cases h
        obtain ⟨u2, f2, us2, fr2, ⟨sufB, hsufB⟩, inv2, mono2, ⟨rows2, hrows2, hmem2⟩, hper2⟩ :=
          weeksLoop_spec api uname uid weeks stF st2 aw hw
        have hartC : stF.artistsC = st.artistsC := by rw [fa]; simp
        refine ⟨hapi, ?_, ?_, ?_, ?_, ?_, ?_, ?_⟩
        · rw [u2, fu]; simp
        · rw [us2, fus]; simp
        · refine ⟨sufB, ?_⟩
          rw [hsufB, far]
          simp
        · intro k v hv
          apply mono2
          rw [hartC]
          exact hv
        · intro hA hT hF hE
          have hAU : ArtistsOk (addUserRow uid uname st) :=
            ArtistsOk_of_eq (by simp) (by simp) hA
          have hTU : TagsOk (addUserRow uid uname st) :=
            TagsOk_of_eq (by simp) (by simp) hT
          have hFU : FriendsOk (addUserRow uid uname st) :=
            FriendsOk_of_eq (by simp) (by simp) hF
          have hEU : EdgesOk (addUserRow uid uname st).db :=
            EdgesOk_of_eq (by simp) hE
          have hAF : ArtistsOk stF := ArtistsOk_of_eq fa far hAU
          have hTF : TagsOk stF := TagsOk_of_eq ft ftg hTU
          obtain ⟨hFF, hEF⟩ := finv hFU hEU
          obtain ⟨hA3, hT3⟩ := inv2 hAF hTF
          refine ⟨hA3, hT3, ?_, ?_⟩
          · exact FriendsOk_of_eq f2 fr2 hFF
          · exact EdgesOk_of_eq fr2 hEF
        · refine ⟨rows2, ?_, hmem2⟩
          rw [hrows2, fw]
          simp
        · intro sid hsid hnodup wf wt hmemw
          have hsidF : getC stF.artistsC "" = some sid := by
            rw [hartC]
            exact hsid
          obtain ⟨radd, heq, hner, hempr⟩ := hper2 sid hsidF hnodup wf wt hmemw
          refine ⟨radd, ?_, hner, hempr⟩
          rw [heq]
          rw [fw]
          simp
      · rw [hw] at h
        simp only [] at h
        cases h
    · rw [hf] at h
      simp only [] at h
      cases h
  · rw [hc] at h
    simp only [] at h
    cases h

/-! ## Visit-step invariant preservation -/

theorem rollbackC_eq {K V : Type} (c c0 : Cache K V) (hs : c.store = c0.store)
    (h0 : c0.tmp = []) : rollbackC c = c0 := by
  cases c
  cases c0
  simp only [rollbackC] at *
  simp_all

theorem GoodSt_of_eq {st st2 : ScraperSt} (h : GoodSt st) (hdb : st2.db = st.db)
    (hu : st2.usersC = st.usersC) (ha : st2.artistsC = st.artistsC)
    (ht : st2.tagsC = st.tagsC) (hf : st2.friendsC = st.friendsC) : GoodSt st2 := by
  obtain ⟨⟨cu, ca, ct, cf⟩, ⟨t1, t2, t3, t4⟩, he, hs⟩ := h
  refine ⟨⟨?_, ?_, ?_, ?_⟩, ⟨?_, ?_, ?_, ?_⟩, ?_, ?_⟩
  · exact UsersOk_of_eq hu (by rw [hdb]) cu
  · exact ArtistsOk_of_eq ha (by rw [hdb]) ca
  · exact TagsOk_of_eq ht (by rw [hdb]) ct
  · exact FriendsOk_of_eq hf (by rw [hdb]) cf
  · rw [hu]; exact t1
  · rw [ha]; exact t2
  · rw [ht]; exact t3
  · rw [hf]; exact t4
  · exact EdgesOk_of_eq (by rw [hdb]) he
  · rw [hdb]; exact hs

theorem Consistent_commitAll (st : ScraperSt) (h : Consistent st) :
    Consistent (commitAll st) ∧ tmpsEmpty (commitAll st) := by
  obtain ⟨cu, ca, ct, cf⟩ := h
  refine ⟨⟨?_, ?_, ?_, ?_⟩, ⟨rfl, rfl, rfl, rfl⟩⟩
  · intro n
    simp only [commitAll]
    rw [getC_commitC]
    exact cu n
  · intro n
    simp only [commitAll]
    rw [getC_commitC]
    exact ca n
  · intro n
    simp only [commitAll]
    rw [getC_commitC]
    exact ct n
  · intro p
    simp only [commitAll]
    rw [getC_commitC]
    exact cf p

theorem scrape_user_inv_ok (api : Api) (cfg : Cfg) (uname : String)
    (weeks : List (String × String)) (st st2 : ScraperSt) (uid : Nat)
    (h : scrape_user api cfg uname weeks st = .ok st2 uid) :
    scrape_user_body api cfg uname weeks st = .ok st2 uid := by
  unfold scrape_user at h
  split at h
  · rename_i stB uidB heq
    cases h
    exact heq
  · cases h
  · simp only [] at h
    split at h <;> cases h

theorem scrape_user_inv_failed (api : Api) (cfg : Cfg) (uname : String)
    (weeks : List (String × String)) (st st2 : ScraperSt)
    (h : scrape_user api cfg uname weeks st = .failed st2) :
    ∃ e st1, scrape_user_body api cfg uname weeks st = .err (.api e) st1 ∧
      st1.errcnt + 1 < cfg.errlim ∧
      st2 = { st1 with db := st.db, errcnt := st1.errcnt + 1, errlog := st1.errlog + 1 } := by
  unfold scrape_user at h
  split at h
  · cases h
  · cases h
  · rename_i e0 st1 heq
    simp only [] at h
    split at h
    · rename_i hlim
      cases h
      exact ⟨e0, st1, heq, hlim, rfl⟩
    · cases h

theorem scrape_user_inv_tripped (api : Api) (cfg : Cfg) (uname : String)
    (weeks : List (String × String)) (st st2 : ScraperSt)
    (h : scrape_user api cfg uname weeks st = .tripped st2) :
    ∃ e st1, scrape_user_body api cfg uname weeks st = .err (.api e) st1 ∧
      ¬ st1.errcnt + 1 < cfg.errlim ∧
      st2 = { st1 with db := st.db, errcnt := st1.errcnt + 1 } := by
  unfold scrape_user at h
  split at h
  · cases h
  · cases h
  · rename_i e0 st1 heq
    simp only [] at h
    split at h
    · cases h
    · rename_i hlim
      cases h
      exact ⟨e0, st1, heq, hlim, rfl⟩

theorem scrape_user_inv_crashed (api : Api) (cfg : Cfg) (uname : String)
    (weeks : List (String × String)) (st st2 : ScraperSt)
    (h : scrape_user api cfg uname weeks st = .crashed st2) :
    ∃ st1, scrape_user_body api cfg uname weeks st = .err .keyError st1 ∧
      st2 = { st1 with db := st.db } := by
  unfold scrape_user at h
  split at h
  · cases h
  · rename_i st1 heq
    cases h
    exact ⟨st1, heq, rfl⟩
  · simp only [] at h
    split at h <;> cases h

theorem GoodSt_rollback (st st1 : ScraperSt) (ec el : Nat) (hg : GoodSt st)
    (huC : st1.usersC = st.usersC) (haS : st1.artistsC.store = st.artistsC.store)
    (htS : st1.tagsC.store = st.tagsC.store) (hfS : st1.friendsC.store = st.friendsC.store) :
    GoodSt (rollbackAll { st1 with db := st.db, errcnt := ec, errlog := el }) := by
  obtain ⟨hcons, htmps, he, hs⟩ := hg
  have hg0 : GoodSt st := ⟨hcons, htmps, he, hs⟩
  refine GoodSt_of_eq hg0 rfl ?_ ?_ ?_ ?_
  · show rollbackC st1.usersC = st.usersC
    exact rollbackC_eq _ _ (by rw [huC]) htmps.1
  · show rollbackC st1.artistsC = st.artistsC
    exact rollbackC_eq _ _ haS htmps.2.1
  · show rollbackC st1.tagsC = st.tagsC
    exact rollbackC_eq _ _ htS htmps.2.2.1
  · show rollbackC st1.friendsC = st.friendsC
    exact rollbackC_eq _ _ hfS htmps.2.2.2

theorem visitStep_good (api : Api) (cfg : Cfg) (weeks : List (String × String))
    (uname : String) (st : ScraperSt) (hg : GoodSt st) :
    (∀ st2, visitStep api cfg weeks uname st = .cont st2 → GoodSt st2) ∧
    (∀ st2, visitStep api cfg weeks uname st = .fatal st2 →
       EdgesOk st2.db ∧ SentinelOk st2.db) ∧
    (∀ st2, visitStep api cfg weeks uname st = .crashed st2 →
       EdgesOk st2.db ∧ SentinelOk st2.db) := by
  unfold visitStep
  by_cases hm : memC st.usersC uname
  · rw [if_pos hm]
    refine ⟨?_, ?_, ?_⟩ <;> intro st2 hh <;> cases hh
    exact hg
  · rw [if_neg hm]
    have hnone : getC st.usersC uname = none := by
      rcases hq : getC st.usersC uname with _ | v
      · rfl
      · rw [memC, hq] at hm
        simp at hm
    rcases hsu : scrape_user api cfg uname weeks st with ⟨stO, uid⟩ | ⟨stO⟩ | ⟨stO⟩ | ⟨stO⟩
    · refine ⟨?_, ?_, ?_⟩ <;> intro st2 hh <;> cases hh
      have hb := scrape_user_inv_ok api cfg uname weeks st stO uid hsu
      have hframe := scrape_user_body_frame api cfg uname weeks st
      rw [hb] at hframe
      simp only [VRes.state] at hframe
      obtain ⟨hapi, huC, husers, ⟨suf, hsuf⟩, mono, hinv, _, _⟩ :=
        scrape_user_body_spec api cfg uname weeks st stO uid hb hnone
      obtain ⟨⟨cu, ca, ct, cf⟩, htmps, he, hs⟩ := hg
      obtain ⟨hA1, hT1, hF1, hE1⟩ := hinv ca ct cf he
      have hcons : Consistent { stO with usersC := setC stO.usersC uname uid } := by
        refine ⟨?_, hA1, hT1, hF1⟩
        intro n
        by_cases hn : n = uname
        · subst hn
          simp only [getC_setC_self]
          simp [userNames, husers]
        · show (getC (setC stO.usersC uname uid) n).isSome = true ↔ _
          rw [getC_setC_ne stO.usersC uname n uid hn, huC]
          rw [cu n]
          simp [userNames, husers, hn]
      obtain ⟨hcons2, htmps2⟩ := Consistent_commitAll _ hcons
      refine ⟨hcons2, htmps2, hE1, ?_⟩
      rw [SentinelOk, artistNames] at hs ⊢
      simp only [commitAll]
      rw [hsuf]
      simp only [List.map_append, List.mem_append]
      exact Or.inl hs
    · refine ⟨?_, ?_, ?_⟩ <;> intro st2 hh <;> cases hh
      obtain ⟨e0, st1, hb, hlim, hst2⟩ :=
        scrape_user_inv_failed api cfg uname weeks st stO hsu
      have hframe := scrape_user_body_frame api cfg uname weeks st
      rw [hb] at hframe
      simp only [VRes.state] at hframe
      obtain ⟨huC, haS, htS, hfS, _, _, _⟩ := hframe
      rw [hst2]
      exact GoodSt_rollback st st1 (st1.errcnt + 1) (st1.errlog + 1) hg huC haS htS hfS
    · refine ⟨?_, ?_, ?_⟩ <;> intro st2 hh <;> cases hh
      obtain ⟨e0, st1, hb, hlim, hst2⟩ :=
        scrape_user_inv_tripped api cfg uname weeks st stO hsu
      obtain ⟨hcons, htmps, he, hs⟩ := hg
      rw [hst2]
      exact ⟨he, hs⟩
    · refine ⟨?_, ?_, ?_⟩ <;> intro st2 hh <;> cases hh
      obtain ⟨st1, hb, hst2⟩ := scrape_user_inv_crashed api cfg uname weeks st stO hsu
      obtain ⟨hcons, htmps, he, hs⟩ := hg
      rw [hst2]
      exact ⟨he, hs⟩

/-! ## Run-loop invariant preservation -/

/-- The invariant guaranteed for each run-loop outcome: while the loop can
    still continue (done, exhausted, out of fuel) the full quiescent
    invariant holds; on the abort paths the database (already rolled back)
    still satisfies the edge and placeholder invariants, but the pending
    cache layers of the aborted attempt are not discarded. -/
def ResGood : RunRes → Prop
  | .done st => GoodSt st
  | .exhausted st => GoodSt st
  | .outOfFuel st => GoodSt st
  | .fatal st => EdgesOk st.db ∧ SentinelOk st.db
  | .crashed st => EdgesOk st.db ∧ SentinelOk st.db

theorem nextRand_fields (st : ScraperSt) :
    (nextRand st).2.db = st.db ∧ (nextRand st).2.usersC = st.usersC ∧
    (nextRand st).2.artistsC = st.artistsC ∧ (nextRand st).2.tagsC = st.tagsC ∧
    (nextRand st).2.friendsC = st.friendsC := by
  rcases hr : st.rngList with _ | ⟨r, rest⟩ <;> simp [nextRand, hr]

theorem GoodSt_nextRand (st : ScraperSt) (h : GoodSt st) : GoodSt (nextRand st).2 := by
  obtain ⟨h1, h2, h3, h4, h5⟩ := nextRand_fields st
  exact GoodSt_of_eq h h1 h2 h3 h4 h5

theorem runLoop_good (api : Api) (cfg : Cfg) (weeks : List (String × String)) :
    ∀ fuel queue st, GoodSt st → ResGood (runLoop api cfg weeks fuel queue st) := by
  intro fuel
  induction fuel with
  | zero =>
      intro queue st hg
      exact hg
  | succ n ih =>
      intro queue st hg
      rw [runLoop]
      by_cases h1 : queue.length + lenC st.usersC = 0 ∨ ¬ lenC st.usersC < cfg.limit
      · rw [if_pos h1]
        by_cases h2 : queue.length + lenC st.usersC = 0
        · rw [if_pos h2]
          exact hg
        · rw [if_neg h2]
          exact hg
      · rw [if_neg h1]
        split
        · show ResGood
            (match api.friendsOf (choiceL (nextRand st).1 (keysC (nextRand st).2.usersC)) with
              | Except.error a => RunRes.crashed (nextRand st).2
              | Except.ok fr =>
                  runLoop api cfg weeks n (n_of_x (nextRand (nextRand st).2).1 10 fr)
                    (nextRand (nextRand st).2).2)
          split
          · rename_i heqf
            obtain ⟨hdb, _, _, _, _⟩ := nextRand_fields st
            obtain ⟨_, _, he, hs⟩ := hg
            constructor
            · exact EdgesOk_of_eq (by rw [hdb]) he
            · rw [SentinelOk, hdb]
              exact hs
          · rename_i fr heqf
            exact ih _ _ (GoodSt_nextRand _ (GoodSt_nextRand st hg))
        · rename_i uname rest heqq
          obtain ⟨hcont, hfatal, hcrash⟩ := visitStep_good api cfg weeks uname st hg
          rcases hv : visitStep api cfg weeks uname st with st1 | st1 | st1
          · exact ih rest st1 (hcont st1 hv)
          · exact hfatal st1 hv
          · exact hcrash st1 hv

/-! ## Forward computation lemmas -/

theorem scrape_user_eq_failed (api : Api) (cfg : Cfg) (uname : String)
    (weeks : List (String × String)) (st st1 : ScraperSt) (e : ApiErr)
    (hb : scrape_user_body api cfg uname weeks st = .err (.api e) st1)
    (hlim : st1.errcnt + 1 < cfg.errlim) :
    scrape_user api cfg uname weeks st =
      .failed { st1 with db := st.db, errcnt := st1.errcnt + 1, errlog := st1.errlog + 1 } := by
  unfold scrape_user
  rw [hb]
  simp only [hlim, if_true]

theorem scrape_user_eq_tripped (api : Api) (cfg : Cfg) (uname : String)
    (weeks : List (String × String)) (st st1 : ScraperSt) (e : ApiErr)
    (hb : scrape_user_body api cfg uname weeks st = .err (.api e) st1)
    (hlim : ¬ st1.errcnt + 1 < cfg.errlim) :
    scrape_user api cfg uname weeks st =
      .tripped { st1 with db := st.db, errcnt := st1.errcnt + 1 } := by
  unfold scrape_user
  rw [hb]
  simp only [hlim, if_false]

theorem visitStep_eq_of_failed (api : Api) (cfg : Cfg) (weeks : List (String × String))
    (uname : String) (st stF : ScraperSt)
    (hmem : memC st.usersC uname = false)
    (hsu : scrape_user api cfg uname weeks st = .failed stF) :
    visitStep api cfg weeks uname st = .cont (rollbackAll stF) := by
  unfold visitStep
  rw [if_neg (by simp [hmem]), hsu]

theorem visitStep_eq_of_tripped (api : Api) (cfg : Cfg) (weeks : List (String × String))
    (uname : String) (st stT : ScraperSt)
    (hmem : memC st.usersC uname = false)
    (hsu : scrape_user api cfg uname weeks st = .tripped stT) :
    visitStep api cfg weeks uname st = .fatal stT := by
  unfold visitStep
  rw [if_neg (by simp [hmem]), hsu]

theorem popLast_append (rest : List String) (u : String) :
    popLast (rest ++ [u]) = some (u, rest) := by
  simp [popLast, List.reverse_append]

theorem runLoop_visit_eq (api : Api) (cfg : Cfg) (weeks : List (String × String))
    (fuel : Nat) (rest : List String) (uname : String) (st : ScraperSt)
    (hlim : lenC st.usersC < cfg.limit) :
    runLoop api cfg weeks (fuel + 1) (rest ++ [uname]) st =
      match visitStep api cfg weeks uname st with
      | .cont st1 => runLoop api cfg weeks fuel rest st1
      | .fatal st1 => .fatal st1
      | .crashed st1 => .crashed st1 := by
  rw [runLoop]
  have h1 : ¬((rest ++ [uname]).length + lenC st.usersC = 0 ∨ ¬ lenC st.usersC < cfg.limit) := by
    intro h
    rcases h with h | h
    · simp [List.length_append] at h
    · exact h hlim
  rw [if_neg h1, popLast_append]

/-! ## Auxiliary results for the claims -/

theorem GoodSt_freshInit (rng : List Nat) : GoodSt (freshInit rng) := by
  refine ⟨⟨?_, ?_, ?_, ?_⟩, ⟨rfl, rfl, rfl, rfl⟩, ⟨?_, ?_⟩, ?_⟩
  · intro n
    simp [freshInit, freshDb, initCache, getC, alookup, userNames]
  · intro n
    by_cases hn : n = ""
    · subst hn
      simp [freshInit, freshDb, initCache, getC, alookup, artistNames]
    · simp [freshInit, freshDb, initCache, getC, alookup, artistNames, hn]
  · intro n
    simp [freshInit, freshDb, initCache, getC, alookup, tagNames]
  · intro p
    simp [freshInit, freshDb, getC, alookup]
  · intro p hp
    simp [freshInit, freshDb] at hp
  · simp [freshInit, freshDb]
  · simp [SentinelOk, freshInit, freshDb, artistNames]

theorem sorted_pair_unique {a b : Nat} {x y : Nat × Nat}
    (hx : x = (a, b) ∨ x = (b, a)) (hy : y = (a, b) ∨ y = (b, a))
    (hxs : x.1 ≤ x.2) (hys : y.1 ≤ y.2) : x = y := by
  rcases hx with hx | hx <;> rcases hy with hy | hy <;> subst hx <;> subst hy
  · rfl
  · simp only [] at hxs hys
    have : a = b := Nat.le_antisymm hxs hys
    rw [this]
  · simp only [] at hxs hys
    have : b = a := Nat.le_antisymm hxs hys
    rw [this]
  · rfl

theorem count_unordered_le_one (l : List (Nat × Nat)) (hs : ∀ p ∈ l, p.1 ≤ p.2)
    (hn : l.Nodup) (a b : Nat) :
    l.countP (fun p => decide (p = (a, b) ∨ p = (b, a))) ≤ 1 := by
  induction l with
  | nil => simp
  | cons q rest ih =>
      rw [List.countP_cons]
      have hrest : ∀ p ∈ rest, p.1 ≤ p.2 := fun p hp => hs p (List.mem_cons_of_mem q hp)
      have hnr : rest.Nodup := (List.nodup_cons.mp hn).2
      by_cases hq : q = (a, b) ∨ q = (b, a)
      · have h0 : rest.countP (fun p => decide (p = (a, b) ∨ p = (b, a))) = 0 := by
          rw [List.countP_eq_zero]
          intro r hr
          simp only [decide_eq_true_eq]
          intro hror
          have : r = q := sorted_pair_unique hror hq (hrest r hr)
            (hs q (List.mem_cons_self q rest))
          rw [this] at hr
          exact (List.nodup_cons.mp hn).1 hr
        rw [h0, if_pos (decide_eq_true hq)]
      · rw [if_neg (by simp [hq])]
        simpa using ih hrest hnr

/-- Whether a run-loop outcome leaves the crawl able to continue or finish
    normally (not the fatal ScraperException, not a crash). -/
def IsLive : RunRes → Bool
  | .done _ => true
  | .exhausted _ => true
  | .outOfFuel _ => true
  | .fatal _ => false
  | .crashed _ => false

/-! ## Concrete instances used by counterexamples and witnesses -/

/-- Remote collaborator for the budget-trip scenario: the profile of
    member u resolves to id 7, week w1 lists artist A, week w2 fails with
    a network error, artist enrichment returns no tags. -/
def apiX : Api :=
  { userInfo := fun n => if n = "u" then .ok 7 else .error .network
    friendsOf := fun _ => .ok []
    chartDates := fun _ => .ok [("w1", "e1"), ("w2", "e2")]
    weeklyChart := fun _ wf _ => if wf = "w1" then .ok [("A", 5)] else .error .network
    artistInfo := fun _ => .ok [] }

/-- Configuration with an error limit of one: the first remote failure
    trips the budget. -/
def cfgX : Cfg :=
  { username := "u", limit := 10, errlim := 1, do_connect := false,
    dateMatch := fun _ => true }

def weeksX : List (String × String) := [("w1", "e1"), ("w2", "e2")]

/-- Remote collaborator whose weekly listings are always empty. -/
def apiW5 : Api :=
  { userInfo := fun _ => .ok 7
    friendsOf := fun _ => .ok []
    chartDates := fun _ => .ok [("w1", "e1")]
    weeklyChart := fun _ _ _ => .ok []
    artistInfo := fun _ => .ok [] }

/-- The committed state after apiW5 visits member u for week w1. -/
def stW5 : ScraperSt :=
  { db := { freshDb with users := [(7, "u")], weekly := [⟨7, 1, "w1", 0⟩] },
    usersC := ⟨[], []⟩, artistsC := ⟨[("", 1)], []⟩, tagsC := ⟨[], []⟩, friendsC := ⟨[], []⟩,
    errcnt := 0, errlog := 0, rngList := [] }

/-- A store holding one committed member u (id 1) with no weekly rows. -/
def stU : ScraperSt :=
  { db := { freshDb with users := [(1, "u")] },
    usersC := ⟨[("u", 1)], []⟩, artistsC := ⟨[("", 1)], []⟩, tagsC := ⟨[], []⟩,
    friendsC := ⟨[], []⟩, errcnt := 0, errlog := 0, rngList := [] }

/-- A store holding the sole committed member RJ (id 1) whose single
    target week w1 is already persisted (the placeholder row). -/
def stRJ : ScraperSt :=
  { db := { freshDb with users := [(1, "RJ")], weekly := [⟨1, 1, "w1", 0⟩] },
    usersC := ⟨[("RJ", 1)], []⟩, artistsC := ⟨[("", 1)], []⟩, tagsC := ⟨[], []⟩,
    friendsC := ⟨[], []⟩, errcnt := 0, errlog := 0, rngList := [] }

/-- Remote collaborator for the frontier scenario: RJ has no friends. -/
def api7 : Api :=
  { userInfo := fun _ => .error .network
    friendsOf := fun _ => .ok []
    chartDates := fun _ => .ok [("w1", "e1")]
    weeklyChart := fun _ _ _ => .ok []
    artistInfo := fun _ => .ok [] }

/-- Limit 2: the walk still wants a second member. -/
def cfg7 : Cfg :=
  { username := "RJ", limit := 2, errlim := 100, do_connect := false,
    dateMatch := fun _ => true }

/-! ## Claim theorems -/

/-- C3: the reconciler computes, per committed member, the set difference
    between the target week starts and the week starts already persisted,
    and the claim says that on a non-empty difference it invokes the visit
    restricted to the missing weeks.  The code instead raises NameError:
    line 337 passes the unbound variable name to LOGGER.debug before
    scrape_user can run.  Evaluated here on a store with one committed
    member u and one target week not yet persisted: rescrape returns the
    NameError outcome with the store untouched and zero visits made. -/
theorem c3_rescrape_raises_name_error :
    rescrape [("w1", "e1")] stU = .nameError stU := by decide

/-- C8: running the reconciler against a store in which every committed
    member already has every target week start persisted (the state a
    completed run leaves behind) performs zero store writes (the state is
    returned unchanged) and zero visit invocations. -/
theorem c8_rescrape_idempotent (weeks : List (String × String)) (st : ScraperSt)
    (hdone : ∀ p ∈ st.usersC.store, ∀ s ∈ weeks.map Prod.fst,
       s ∈ scrapedWeeks st.db p.2) :
    rescrape weeks st = .ok st 0 := by
  unfold rescrape
  suffices h : ∀ l, (∀ p ∈ l, ∀ s ∈ weeks.map Prod.fst, s ∈ scrapedWeeks st.db p.2) →
      rescrapeLoop ((weeks.map Prod.fst).dedup) l st = .ok st 0 by
    exact h st.usersC.store hdone
  intro l hl
  induction l with
  | nil => rfl
  | cons p rest ih =>
      simp only [rescrapeLoop]
      have htbd : ((weeks.map Prod.fst).dedup).filter
          (fun s => decide (¬ s ∈ scrapedWeeks st.db p.2)) = [] := by
        rw [List.filter_eq_nil_iff]
        intro s hs
        have hsmem : s ∈ weeks.map Prod.fst := List.mem_dedup.mp hs
        have := hl p (List.mem_cons_self p rest) s hsmem
        simp [this]
      rw [htbd]
      simp only [List.isEmpty_nil, if_true]
      exact ih fun q hq => hl q (List.mem_cons_of_mem p hq)

/-- Witness for C8 at a concrete input: the sole committed member RJ has
    its single target week persisted, so the reconciler returns the store
    unchanged with zero visits. -/
theorem c8_rescrape_idempotent_witness :
    (∀ p ∈ stRJ.usersC.store, ∀ s ∈ ([("w1", "e1")].map Prod.fst),
       s ∈ scrapedWeeks stRJ.db p.2) ∧
    rescrape [("w1", "e1")] stRJ = .ok stRJ 0 :=
  ⟨by decide, c8_rescrape_idempotent [("w1", "e1")] stRJ (by decide)⟩

/-- C9: the target week list is computed from the weekly chart calendar of
    the fixed member RJ, regardless of the configured seed member: for any
    two remote collaborators that agree on the RJ calendar and any two
    seed names, the selected weeks coincide. -/
theorem c9_weeks_from_rj (api1 api2 : Api) (cfg : Cfg) (n1 n2 : String)
    (h : api1.chartDates "RJ" = api2.chartDates "RJ") :
    get_weeks api1 { cfg with username := n1 } =
      get_weeks api2 { cfg with username := n2 } := by
  unfold get_weeks
  rw [h]

/-- Witness for C9 at a concrete input: same collaborator, two different
    seed names. -/
theorem c9_weeks_from_rj_witness :
    apiX.chartDates "RJ" = apiX.chartDates "RJ" ∧
    get_weeks apiX { cfgX with username := "a" } =
      get_weeks apiX { cfgX with username := "b" } :=
  ⟨rfl, c9_weeks_from_rj apiX apiX cfgX "a" "b" rfl⟩

/-- C10: a key written through the cache setter during an in-flight
    transaction, for a key absent from the committed layer, is visible to
    the getter but is not counted by the length and is not yielded by
    iteration; consequently the run-loop tests of lines 356 and 362, which
    use the length, count only committed members. -/
theorem c10_pending_layer_invisible (c : Cache String Nat) (k : String) (v lim : Nat)
    (hk : alookup c.store k = none) :
    getC (setC c k v) k = some v ∧
    lenC (setC c k v) = lenC c ∧
    k ∉ keysC (setC c k v) ∧
    (lenC (setC c k v) < lim ↔ lenC c < lim) ∧
    (lenC (setC c k v) = 0 ↔ lenC c = 0) := by
  refine ⟨getC_setC_self c k v, rfl, ?_, Iff.rfl, Iff.rfl⟩
  rw [keysC, setC_store]
  exact (alookup_eq_none_iff c.store k).mp hk

/-- Witness for C10 at a concrete input. -/
theorem c10_pending_layer_invisible_witness :
    alookup (Cache.mk [("a", 1)] [] : Cache String Nat).store "b" = none ∧
    (getC (setC (Cache.mk [("a", 1)] []) "b" 2) "b" = some 2 ∧
     lenC (setC (Cache.mk [("a", 1)] ([] : List (String × Nat))) "b" 2) =
       lenC (Cache.mk [("a", 1)] []) ∧
     "b" ∉ keysC (setC (Cache.mk [("a", 1)] ([] : List (String × Nat))) "b" 2) ∧
     (lenC (setC (Cache.mk [("a", 1)] ([] : List (String × Nat))) "b" 2) < 1 ↔
       lenC (Cache.mk [("a", 1)] ([] : List (String × Nat))) < 1) ∧
     (lenC (setC (Cache.mk [("a", 1)] ([] : List (String × Nat))) "b" 2) = 0 ↔
       lenC (Cache.mk [("a", 1)] ([] : List (String × Nat))) = 0)) :=
  ⟨by decide, c10_pending_layer_invisible (Cache.mk [("a", 1)] []) "b" 2 1 (by decide)⟩

/-- C7: with a sole committed member RJ that has no friends and a member
    limit of 2, the claim says the walk terminates by raising the fatal
    frontier-exhausted ScraperException.  Instead the inner replenish loop
    of lines 366-369 spins forever: every sample of the empty friend list
    leaves the queue empty, the state never changes, and no fuel bound
    makes the loop exit — the depleted-pool check of line 375 only fires
    when queue and committed members are both empty. -/
theorem c7_frontier_never_exhausts :
    ∀ fuel, runMain api7 cfg7 fuel stRJ = .loop (.outOfFuel stRJ) := by
  have hmain : ∀ fuel, runMain api7 cfg7 fuel stRJ =
      .loop (runLoop api7 cfg7 [("w1", "e1")] fuel [] stRJ) := fun _ => rfl
  have hstep : ∀ n, runLoop api7 cfg7 [("w1", "e1")] (n + 1) [] stRJ =
      runLoop api7 cfg7 [("w1", "e1")] n [] stRJ := fun _ => rfl
  have hloop : ∀ fuel, runLoop api7 cfg7 [("w1", "e1")] fuel [] stRJ = .outOfFuel stRJ := by
    intro fuel
    induction fuel with
    | zero => rfl
    | succ n ih => exact (hstep n).trans ih
  intro fuel
  rw [hmain fuel, hloop fuel]

/-- The dirty intermediate state at which week w2 raises its network error
    inside the apiX visit of member u: the Users and Artists rows written
    so far are still pending in the open transaction, and artist A sits in
    the pending layer of the artists cache. -/
def stDirty : ScraperSt :=
  { db := { users := [(7, "u")], artists := [(1, ""), (2, "A")], tags := [], friends := [],
            artistTags := [], weekly := [⟨7, 2, "w1", 5⟩], nextArtist := 3, nextTag := 1,
            nextFriend := 1 },
    usersC := ⟨[], []⟩, artistsC := ⟨[("", 1)], [("A", 2)]⟩, tagsC := ⟨[], []⟩,
    friendsC := ⟨[], []⟩, errcnt := 0, errlog := 0, rngList := [] }

/-- C1 counterexample: a visit of member u that fails with an unrecoverable
    remote error after writes were made (artist A was created and cached
    during week w1; week w2 then raised a network error reaching the
    configured limit of one).  The store is rolled back and the member is
    not in the visited set, but the pending cache layers of the attempt are
    NOT discarded, refuting the claim that every pending layer is discarded
    together with the store rollback on every such failure. -/
theorem c1_counterexample :
    isFatal (visitStep apiX cfgX weeksX "u" (freshInit [])) = true ∧
    (stepState (visitStep apiX cfgX weeksX "u" (freshInit []))).db = (freshInit []).db ∧
    memC (stepState (visitStep apiX cfgX weeksX "u" (freshInit []))).usersC "u" = false ∧
    getC (stepState (visitStep apiX cfgX weeksX "u" (freshInit []))).artistsC "A" = some 2 ∧
    (stepState (visitStep apiX cfgX weeksX "u" (freshInit []))).artistsC.tmp ≠ [] := by
  decide

/-- C1 (amended): for every visit of an unvisited member that fails with a
    remote error while the incremented error count stays below the
    configured limit, the loop continues, no member, friendship-edge or
    weekly row of the attempt remains (the whole database equals the entry
    database), every identity cache including its pending layer is restored
    to its entry state, and the member is absent from the visited set so it
    can be retried later; the error counter advances by one.  (On the
    failure that reaches the limit the store still rolls back and the
    member is still unvisited, but the pending layers survive, see the
    counterexample.) -/
theorem c1_failed_visit_rolls_back (api : Api) (cfg : Cfg) (uname : String)
    (weeks : List (String × String)) (st st1 : ScraperSt) (e : ApiErr)
    (hg : GoodSt st)
    (hmem : memC st.usersC uname = false)
    (hbody : scrape_user_body api cfg uname weeks st = .err (.api e) st1)
    (hlim : st.errcnt + 1 < cfg.errlim) :
    ∃ st2, visitStep api cfg weeks uname st = .cont st2 ∧ st2.db = st.db ∧
      st2.usersC = st.usersC ∧ st2.artistsC = st.artistsC ∧ st2.tagsC = st.tagsC ∧
      st2.friendsC = st.friendsC ∧ memC st2.usersC uname = false ∧
      st2.errcnt = st.errcnt + 1 := by
  have hframe := scrape_user_body_frame api cfg uname weeks st
  rw [hbody] at hframe
  simp only [VRes.state] at hframe
  obtain ⟨huC, haS, htS, hfS, hec, hel, hrl⟩ := hframe
  have hlim1 : st1.errcnt + 1 < cfg.errlim := by
    rw [hec]
    exact hlim
  have hsu := scrape_user_eq_failed api cfg uname weeks st st1 e hbody hlim1
  have hvs := visitStep_eq_of_failed api cfg weeks uname st _ hmem hsu
  obtain ⟨hcons, htmps, he, hsent⟩ := hg
  have huEq : rollbackC st1.usersC = st.usersC :=
    rollbackC_eq _ _ (by rw [huC]) htmps.1
  refine ⟨_, hvs, rfl, ?_, ?_, ?_, ?_, ?_, ?_⟩
  · exact huEq
  · show rollbackC st1.artistsC = st.artistsC
    exact rollbackC_eq _ _ haS htmps.2.1
  · show rollbackC st1.tagsC = st.tagsC
    exact rollbackC_eq _ _ htS htmps.2.2.1
  · show rollbackC st1.friendsC = st.friendsC
    exact rollbackC_eq _ _ hfS htmps.2.2.2
  · show memC (rollbackC st1.usersC) uname = false
    rw [huEq]
    exact hmem
  · show st1.errcnt + 1 = st.errcnt + 1
    rw [hec]

/-- Witness for the amended C1: the same failing scenario but with an
    error limit of five, so the failure stays below the limit; the visit
    rolls everything back. -/
theorem c1_failed_visit_rolls_back_witness :
    GoodSt (freshInit []) ∧
    memC (freshInit []).usersC "u" = false ∧
    scrape_user_body apiX { cfgX with errlim := 5 } "u" weeksX (freshInit []) =
      .err (.api .network) stDirty ∧
    (freshInit []).errcnt + 1 < 5 ∧
    (∃ st2, visitStep apiX { cfgX with errlim := 5 } weeksX "u" (freshInit []) = .cont st2 ∧
      st2.db = (freshInit []).db ∧
      st2.usersC = (freshInit []).usersC ∧ st2.artistsC = (freshInit []).artistsC ∧
      st2.tagsC = (freshInit []).tagsC ∧ st2.friendsC = (freshInit []).friendsC ∧
      memC st2.usersC "u" = false ∧ st2.errcnt = (freshInit []).errcnt + 1) :=
  ⟨GoodSt_freshInit [], by decide, by decide, by decide,
   c1_failed_visit_rolls_back apiX { cfgX with errlim := 5 } "u" weeksX (freshInit []) stDirty
     .network (GoodSt_freshInit []) (by decide) (by decide) (by decide)⟩

/-- C2 counterexample: a crawl-reachable state violating the cache/store
    visibility equivalence.  Running the loop on the fresh store with
    queue [u] under apiX (error limit one) performs one visit that writes
    artist A and then trips the budget: the store is rolled back but the
    cache pending layers are not, so afterwards the artists cache shows A
    although no Artists row with that name exists. -/
theorem c2_counterexample :
    IsLive (runLoop apiX cfgX weeksX 1 ["u"] (freshInit [])) = false ∧
    (getC (runState (runLoop apiX cfgX weeksX 1 ["u"] (freshInit []))).artistsC "A").isSome
      = true ∧
    ("A" ∈ artistNames (runState (runLoop apiX cfgX weeksX 1 ["u"] (freshInit []))).db)
      = False := by
  decide

/-- C2 (amended): after any sequence of commits and rollbacks performed by
    the run loop that has not aborted through the fatal budget trip or a
    crash, for every natural key of every cached entity type, the identity
    cache get returns a value if and only if a row with that key exists in
    the store, and no pending write is in flight.  (At the fatal outcomes
    the store has rolled back but the pending layer of the aborted attempt
    survives, see the counterexample.)  Reconciler visits never commit or
    roll anything back because rescrape raises NameError before any visit
    (claim C3), so the run loop steps are exactly the commits and
    rollbacks the crawl can perform. -/
theorem c2_cache_store_equivalence (api : Api) (cfg : Cfg)
    (weeks : List (String × String)) (fuel : Nat) (queue : List String) (st : ScraperSt)
    (hg : GoodSt st)
    (hlive : IsLive (runLoop api cfg weeks fuel queue st) = true) :
    Consistent (runState (runLoop api cfg weeks fuel queue st)) ∧
    tmpsEmpty (runState (runLoop api cfg weeks fuel queue st)) := by
  have hres := runLoop_good api cfg weeks fuel queue st hg
  rcases hr : runLoop api cfg weeks fuel queue st with st1 | st1 | st1 | st1 | st1 <;>
    rw [hr] at hres hlive
  · exact ⟨hres.1, hres.2.1⟩
  · exact ⟨hres.1, hres.2.1⟩
  · cases hlive
  · cases hlive
  · exact ⟨hres.1, hres.2.1⟩

/-- Witness for the amended C2: one loop iteration on the fresh store with
    an empty queue ends with the pool-depleted outcome, which is live, and
    the invariant holds there. -/
theorem c2_cache_store_equivalence_witness :
    GoodSt (freshInit []) ∧
    IsLive (runLoop apiX cfgX weeksX 1 [] (freshInit [])) = true ∧
    (Consistent (runState (runLoop apiX cfgX weeksX 1 [] (freshInit []))) ∧
     tmpsEmpty (runState (runLoop apiX cfgX weeksX 1 [] (freshInit [])))) :=
  ⟨GoodSt_freshInit [], by decide,
   c2_cache_store_equivalence apiX cfgX weeksX 1 [] (freshInit [])
     (GoodSt_freshInit []) (by decide)⟩

/-- C4: in any run of the walk started from a freshly initialized store,
    every recorded friendship-edge row satisfies a less-or-equal b, no two
    rows are equal, and for every unordered pair of member ids at most one
    row matches it in either orientation — whatever remote collaborator,
    configuration, fuel, queue and random stream are used, and whichever
    way the run ends. -/
theorem c4_canonical_edges (api : Api) (cfg : Cfg) (weeks : List (String × String))
    (fuel : Nat) (queue : List String) (rng : List Nat) :
    (∀ p ∈ (runState (runLoop api cfg weeks fuel queue (freshInit rng))).db.friends,
       p.1 ≤ p.2) ∧
    (runState (runLoop api cfg weeks fuel queue (freshInit rng))).db.friends.Nodup ∧
    (∀ a b : Nat,
       (runState (runLoop api cfg weeks fuel queue (freshInit rng))).db.friends.countP
         (fun p => decide (p = (a, b) ∨ p = (b, a))) ≤ 1) := by
  have hres := runLoop_good api cfg weeks fuel queue (freshInit rng) (GoodSt_freshInit rng)
  have hE : EdgesOk (runState (runLoop api cfg weeks fuel queue (freshInit rng))).db := by
    rcases hr : runLoop api cfg weeks fuel queue (freshInit rng) with st1 | st1 | st1 | st1 | st1 <;>
      rw [hr] at hres
    · exact hres.2.2.1
    · exact hres.2.2.1
    · exact hres.1
    · exact hres.1
    · exact hres.2.2.1
  exact ⟨hE.1, hE.2, fun a b => count_unordered_le_one _ hE.1 hE.2 a b⟩

/-- C5: for every week of the target list processed by a committed visit
    of a not-yet-visited member with no prior weekly rows, at least one
    WeeklyArtistChart row for that member and week start exists afterwards;
    and when the fetched listing for that week was empty, the rows for that
    member and week start are exactly one row referencing the id under
    which the crawl knows the reserved empty-name artist, with playcount
    zero — never zero rows. -/
theorem c5_sentinel_completeness (api : Api) (cfg : Cfg) (uname : String)
    (weeks : List (String × String)) (st st2 : ScraperSt) (uid : Nat) (wf wt : String)
    (hg : GoodSt st)
    (hmem : getC st.usersC uname = none)
    (h : scrape_user api cfg uname weeks st = .ok st2 uid)
    (hfresh : ∀ r ∈ st.db.weekly, r.user ≠ uid)
    (hnodup : (weeks.map Prod.fst).Nodup)
    (hwk : (wf, wt) ∈ weeks) :
    (∃ r ∈ st2.db.weekly, r.user = uid ∧ r.weekfrom = wf) ∧
    (api.weeklyChart uname wf wt = .ok [] →
       ∃ sid, getC st.artistsC "" = some sid ∧
         rowsFor st2.db.weekly uid wf = [⟨uid, sid, wf, 0⟩]) := by
  have hb := scrape_user_inv_ok api cfg uname weeks st st2 uid h
  obtain ⟨⟨cu, ca, ct, cf⟩, htmps, he, hsent⟩ := hg
  have hsome : (getC st.artistsC "").isSome = true := (ca "").mpr hsent
  rcases hq : getC st.artistsC "" with _ | sid
  · rw [hq] at hsome
    cases hsome
  obtain ⟨_, _, _, _, _, _, _, hper⟩ :=
    scrape_user_body_spec api cfg uname weeks st st2 uid hb hmem
  obtain ⟨radd, heq, hne, hemp⟩ := hper sid hq hnodup wf wt hwk
  have hfr : rowsFor st.db.weekly uid wf = [] := by
    rw [rowsFor, List.filter_eq_nil_iff]
    intro r hr
    simp only [Bool.and_eq_true, beq_iff_eq, not_and]
    intro hu
    exact absurd hu (hfresh r hr)
  rw [hfr, List.nil_append] at heq
  constructor
  · rcases hradd : radd with _ | ⟨r0, rrest⟩
    · exact absurd hradd hne
    · have hr0 : r0 ∈ rowsFor st2.db.weekly uid wf := by
        rw [heq, hradd]
        simp
      rw [rowsFor] at hr0
      have hmf := List.mem_filter.mp hr0
      have hb2 := hmf.2
      simp only [Bool.and_eq_true, beq_iff_eq] at hb2
      exact ⟨r0, hmf.1, hb2.1, hb2.2⟩
  · intro hempty
    refine ⟨sid, rfl, ?_⟩
    rw [heq, hemp hempty]

/-- Witness for C5: member u visited for the single week w1 whose listing
    is empty; exactly the placeholder row is recorded. -/
theorem c5_sentinel_completeness_witness :
    GoodSt (freshInit []) ∧
    getC (freshInit []).usersC "u" = none ∧
    scrape_user apiW5 cfgX "u" [("w1", "e1")] (freshInit []) = .ok stW5 7 ∧
    (∀ r ∈ (freshInit []).db.weekly, r.user ≠ 7) ∧
    ((([("w1", "e1")] : List (String × String)).map Prod.fst).Nodup) ∧
    ("w1", "e1") ∈ ([("w1", "e1")] : List (String × String)) ∧
    ((∃ r ∈ stW5.db.weekly, r.user = 7 ∧ r.weekfrom = "w1") ∧
     (apiW5.weeklyChart "u" "w1" "e1" = .ok [] →
        ∃ sid, getC (freshInit []).artistsC "" = some sid ∧
          rowsFor stW5.db.weekly 7 "w1" = [⟨7, sid, "w1", 0⟩])) :=
  ⟨GoodSt_freshInit [], by decide, by decide, by decide, by decide, by decide,
   c5_sentinel_completeness apiW5 cfgX "u" [("w1", "e1")] (freshInit []) stW5 7 "w1" "e1"
     (GoodSt_freshInit []) (by decide) (by decide) (by decide) (by decide) (by decide)⟩

/-- C6: with a configured error limit, a remote failure of the visit body
    below the limit increments the error counter, logs the error, and the
    crawl continues in the normal state (the loop proceeds to its next
    iteration after rolling the caches back); the failure that makes the
    counter reach the limit — and no earlier one — produces the terminal
    tripped outcome, which surfaces as the fatal ScraperException stopping
    the run loop. -/
theorem c6_error_budget (api : Api) (cfg : Cfg) (uname : String)
    (weeks : List (String × String)) (st st1 : ScraperSt) (e : ApiErr)
    (rest : List String) (fuel : Nat)
    (hmem : memC st.usersC uname = false)
    (hpool : lenC st.usersC < cfg.limit)
    (hbody : scrape_user_body api cfg uname weeks st = .err (.api e) st1) :
    (st.errcnt + 1 < cfg.errlim →
       scrape_user api cfg uname weeks st =
         .failed { st1 with db := st.db, errcnt := st.errcnt + 1, errlog := st.errlog + 1 } ∧
       runLoop api cfg weeks (fuel + 1) (rest ++ [uname]) st =
         runLoop api cfg weeks fuel rest
           (rollbackAll { st1 with db := st.db, errcnt := st.errcnt + 1, errlog := st.errlog + 1 })) ∧
    (st.errcnt + 1 = cfg.errlim →
       scrape_user api cfg uname weeks st =
         .tripped { st1 with db := st.db, errcnt := st.errcnt + 1 } ∧
       runLoop api cfg weeks (fuel + 1) (rest ++ [uname]) st =
         .fatal { st1 with db := st.db, errcnt := st.errcnt + 1 }) := by
  have hframe := scrape_user_body_frame api cfg uname weeks st
  rw [hbody] at hframe
  simp only [VRes.state] at hframe
  obtain ⟨huC, haS, htS, hfS, hec, hel, hrl⟩ := hframe
  constructor
  · intro hlt
    have hlim1 : st1.errcnt + 1 < cfg.errlim := by
      rw [hec]
      exact hlt
    have hsu := scrape_user_eq_failed api cfg uname weeks st st1 e hbody hlim1
    rw [hec, hel] at hsu
    refine ⟨hsu, ?_⟩
    have hvs := visitStep_eq_of_failed api cfg weeks uname st _ hmem hsu
    rw [runLoop_visit_eq api cfg weeks fuel rest uname st hpool, hvs]
  · intro heqlim
    have hlim1 : ¬ st1.errcnt + 1 < cfg.errlim := by
      rw [hec, heqlim]
      exact Nat.lt_irrefl _
    have hsu := scrape_user_eq_tripped api cfg uname weeks st st1 e hbody hlim1
    rw [hec] at hsu
    refine ⟨hsu, ?_⟩
    have hvs := visitStep_eq_of_tripped api cfg weeks uname st _ hmem hsu
    rw [runLoop_visit_eq api cfg weeks fuel rest uname st hpool, hvs]

/-- Witness for C6: under apiX (limit one) the first failure is the
    tripping one; with limit five it is a logged, recoverable one. -/
theorem c6_error_budget_witness :
    memC (freshInit []).usersC "u" = false ∧
    lenC (freshInit []).usersC < cfgX.limit ∧
    scrape_user_body apiX cfgX "u" weeksX (freshInit []) = .err (.api .network) stDirty ∧
    ((freshInit []).errcnt + 1 = cfgX.errlim →
       scrape_user apiX cfgX "u" weeksX (freshInit []) =
         .tripped { stDirty with db := (freshInit []).db, errcnt := (freshInit []).errcnt + 1 } ∧
       runLoop apiX cfgX weeksX 1 ([] ++ ["u"]) (freshInit []) =
         .fatal { stDirty with db := (freshInit []).db, errcnt := (freshInit []).errcnt + 1 }) :=
  ⟨by decide, by decide, by decide,
   (c6_error_budget apiX cfgX "u" weeksX (freshInit []) stDirty .network [] 0
     (by decide) (by decide) (by decide)).2⟩
